import Mathlib

/-!
Verification of the live-monitoring telemetry engine of a React DAQ dashboard.

The development shallowly embeds the engine's core:
* the binary frame decoder of `processWebSocketMessage` (Monitoring component),
* the per-channel buffer retention policy (`trimBuffer`, inlined in the same
  function in the source),
* the channel routing table (pool / named groups) of the Plots component,
* the channel-selection flow of the CascadingMultiSelect component,
* the connection lifecycle of LiveMonitorContext
  (`switchDataStreamWSConnection`, the socket `onclose` handler, the
  connection-Off effects, and `sendDynamicChannelRequest`).

JavaScript numbers appearing as float64/float32 wire values are modelled
exactly as rationals (plus an explicit NaN constructor for float32 payloads,
whose only use in the engine is a strict-equality test against 1).
JavaScript objects used as keyed maps are modelled as association lists
preserving insertion order, keyed directly by the numeric channel id (in the
source the keys are the ids' decimal string images, a bijection).
-/

/-- A float32 payload value as produced by `DataView.getFloat32`: either a
finite value (modelled exactly as a rational) or NaN. The engine only ever
compares payload values against `1` with strict equality. -/
inductive FVal where
  | num (q : ℚ)
  | nan
deriving DecidableEq

/-- The JavaScript strict-equality test `data === 1`; NaN compares unequal to
everything, including 1. -/
def FVal.isOne : FVal → Bool
  | .num q => q == 1
  | .nan => false

/-- `DiscreteChannelState` from ConfiguredChannelSchema.ts. -/
inductive DiscreteChannelState where
  | HIGH
  | LOW
deriving DecidableEq

/-- One entry of a `dataPoints` array: `{x: new Date(t * 1000), y: value}`.
The `Date` wrapper is injective in `t`, so the point is represented by the
raw corrected timestamp `x` (seconds) together with the payload value. -/
structure Sample where
  x : ℚ
  y : FVal
deriving DecidableEq

/-- `SeriesData` from ChartSchema.ts (the chart-config fields that the
ingestion engine reads or writes). -/
structure SeriesData where
  name : String
  showInLegend : Bool
  visible : Bool
  dataPoints : List Sample
deriving DecidableEq

/-- A JavaScript object used as a keyed map: insertion order preserved, at
most one entry per key in all states the engine builds. The per-channel
stores are keyed by the channel id; in JavaScript those keys are the decimal
string images of the ids, a bijection we compose away by keying directly
with the id. -/
abbrev JMap (κ α : Type) := List (κ × α)

namespace JMap

/-- Property read `obj[k]`. -/
def find {κ α : Type} [DecidableEq κ] : JMap κ α → κ → Option α
  | [], _ => none
  | (k', v) :: rest, k => if k' = k then some v else find rest k

/-- Property write `obj[k] = v`: overwrites in place, appends if absent. -/
def set {κ α : Type} [DecidableEq κ] : JMap κ α → κ → α → JMap κ α
  | [], k, v => [(k, v)]
  | (k', v') :: rest, k, v =>
    if k' = k then (k', v) :: rest else (k', v') :: set rest k v

/-- `delete obj[k]`. -/
def erase {κ α : Type} [DecidableEq κ] (m : JMap κ α) (k : κ) : JMap κ α :=
  m.filter (fun kv => decide (kv.1 ≠ k))

/-- `Object.keys(obj)`. -/
def keys {κ α : Type} (m : JMap κ α) : List κ :=
  m.map Prod.fst

end JMap

/-- The `DataBytePosition` enum of the Monitoring component. -/
def DataBytePosition.ChannelCount : Nat := 4

def DataBytePosition.DataCount : Nat := 6

def DataBytePosition.ChannelUniqueId : Nat := 8

def DataBytePosition.TimeStamp : Nat := 12

def DataBytePosition.TimeDelta : Nat := 20

def DataBytePosition.Payload : Nat := 28

/-- The `DataView` over the received `ArrayBuffer`. The little-endian
multi-byte decodings are modelled as oracles indexed by byte offset (the
IEEE-754 bit decoding is the platform's primitive); `len` is `byteLength`
and drives the RangeError bounds check performed by every read. -/
structure DataView where
  len : Nat
  u16 : Nat → Nat
  u32 : Nat → Nat
  f64 : Nat → ℚ
  f32 : Nat → FVal

/-- `getUint16(off, true)`; `none` models the thrown RangeError. -/
def DataView.getUint16 (dv : DataView) (off : Nat) : Option Nat :=
  if off + 2 ≤ dv.len then some (dv.u16 off) else none

/-- `getUint32(off, true)`. -/
def DataView.getUint32 (dv : DataView) (off : Nat) : Option Nat :=
  if off + 4 ≤ dv.len then some (dv.u32 off) else none

/-- `getFloat64(off, true)`. -/
def DataView.getFloat64 (dv : DataView) (off : Nat) : Option ℚ :=
  if off + 8 ≤ dv.len then some (dv.f64 off) else none

/-- `getFloat32(off, true)`. -/
def DataView.getFloat32 (dv : DataView) (off : Nat) : Option FVal :=
  if off + 4 ≤ dv.len then some (dv.f32 off) else none

/-- `const epochTime_1904 = 2082844801`. -/
def epochTime_1904 : ℚ := 2082844801

/-- The mutable state touched by `processWebSocketMessage`:
`activePlotChannelsRef.current`, `activeDiscreteChannelsRef.current`, and the
local `triggerPlot` / `triggerDiscrete` flags. -/
structure IngestState where
  activePlotChannels : JMap Nat SeriesData
  activeDiscreteChannels : JMap Nat DiscreteChannelState
  triggerPlot : Bool
  triggerDiscrete : Bool
deriving DecidableEq

/-- Ambient inputs of one `processWebSocketMessage` call: the configured
buffer window and the per-channel zoom flag
(`isZoomedRefs.current[channelChartRef.current[channelID] || "main"]`,
composed here into a single lookup keyed by channel id). -/
structure IngestEnv where
  bufferTimeWindow : ℚ
  isZoomed : Nat → Bool

/-- Outcome of a decode: `ok` with the final cursor, or `err` carrying the
state as already mutated when the RangeError was thrown (the source mutates
the refs in place, so those writes survive the exception). -/
inductive IngestResult where
  | ok (st : IngestState) (off : Nat)
  | err (st : IngestState)
deriving DecidableEq

/-- JavaScript ToIntegerOrInfinity: truncation toward zero. -/
def jsTrunc (q : ℚ) : Int :=
  if 0 ≤ q then ⌊q⌋ else ⌈q⌉

/-- `Array.prototype.slice(start)` with one (possibly fractional, possibly
negative) argument. A start of `-0` (any argument truncating to zero)
behaves as index 0 and keeps the whole array. -/
def jsSlice {α : Type} (l : List α) (q : ℚ) : List α :=
  let i := jsTrunc q
  if i < 0 then l.drop (l.length - (-i).toNat) else l.drop (min i.toNat l.length)

/-- Retention step of `processWebSocketMessage` (lines 184-209 of the
Monitoring component), applied to a plot channel's `dataPoints` after a
block's samples have been appended. -/
def trimBuffer (bufferTimeWindow : ℚ) (zoomed : Bool) (timeDelta : ℚ)
    (buf : List Sample) : List Sample :=
  let maxBufferDataCount := 1 / timeDelta * bufferTimeWindow
  if maxBufferDataCount < (buf.length : ℚ) then
    if zoomed = false then jsSlice buf (-maxBufferDataCount)
    else
      let maxZoomedBuffDataCount := 1 / timeDelta * (180 : ℚ)
      if maxZoomedBuffDataCount < (buf.length : ℚ) then
        jsSlice buf (-maxZoomedBuffDataCount)
      else buf
  else buf

/-- The payload loop of a wanted plot channel: reads `n` float32 samples at
`cursor + Payload`, advancing the cursor by 4 each time, appending
`{x: dataPointTime, y: data}` and stepping the time by `timeDelta`. On a
RangeError the samples pushed so far are returned with the error. -/
def readPlotSamples (dv : DataView) (timeDelta : ℚ) :
    Nat → Nat → ℚ → List Sample → Except (List Sample) (List Sample × Nat)
  | 0, cur, _, acc => .ok (acc, cur)
  | n + 1, cur, t, acc =>
    match dv.getFloat32 (cur + DataBytePosition.Payload) with
    | none => .error acc
    | some v => readPlotSamples dv timeDelta n (cur + 4) (t + timeDelta) (acc ++ [⟨t, v⟩])

/-- The payload loop of a discrete channel: each iteration overwrites the
channel's state with `data === 1 ? "HIGH" : "LOW"`. Returns the final value,
whether at least one write happened (`triggerDiscrete`), and the cursor; on
a RangeError it returns the value and flag accumulated so far. -/
def readDiscreteState (dv : DataView) :
    Nat → Nat → DiscreteChannelState → Bool →
      Except (DiscreteChannelState × Bool) (DiscreteChannelState × Bool × Nat)
  | 0, cur, v, wrote => .ok (v, wrote, cur)
  | n + 1, cur, v, wrote =>
    match dv.getFloat32 (cur + DataBytePosition.Payload) with
    | none => .error (v, wrote)
    | some d => readDiscreteState dv n (cur + 4) (if d.isOne then .HIGH else .LOW) true

/-- One channel block of the frame loop: header reads at fixed offsets from
the current cursor (`c+6` sample count, `c+8` channel id, `c+12` timestamp,
`c+20` delta), then one of the three paths (wanted plot channel, discrete
channel, unwanted channel). -/
def processBlock (env : IngestEnv) (dv : DataView) (off : Nat) (st : IngestState) :
    IngestResult :=
  match dv.getUint16 (off + DataBytePosition.DataCount) with
  | none => .err st
  | some dataCount =>
    match dv.getUint32 (off + DataBytePosition.ChannelUniqueId) with
    | none => .err st
    | some channelID =>
      match dv.getFloat64 (off + DataBytePosition.TimeStamp) with
      | none => .err st
      | some timeStamp =>
        match dv.getFloat64 (off + DataBytePosition.TimeDelta) with
        | none => .err st
        | some timeDelta =>
          match st.activePlotChannels.find channelID with
          | none =>
            match st.activeDiscreteChannels.find channelID with
            | some cur =>
              match readDiscreteState dv dataCount off cur false with
              | .error (v, wrote) =>
                .err { st with
                  activeDiscreteChannels :=
                    st.activeDiscreteChannels.set channelID v,
                  triggerDiscrete := st.triggerDiscrete || wrote }
              | .ok (v, wrote, cur') =>
                .ok { st with
                  activeDiscreteChannels :=
                    st.activeDiscreteChannels.set channelID v,
                  triggerDiscrete := st.triggerDiscrete || wrote }
                  (cur' + 22)
            | none =>
              .ok st (off + 4 * dataCount + 22)
          | some series =>
            match readPlotSamples dv timeDelta dataCount off
                (if epochTime_1904 < timeStamp then timeStamp - epochTime_1904
                 else timeStamp) [] with
            | .error pts =>
              .err { st with
                activePlotChannels := st.activePlotChannels.set channelID
                  { series with dataPoints := series.dataPoints ++ pts } }
            | .ok (pts, cur') =>
              .ok { st with
                activePlotChannels := st.activePlotChannels.set channelID
                  { series with
                    dataPoints := trimBuffer env.bufferTimeWindow
                      (env.isZoomed channelID) timeDelta
                      (series.dataPoints ++ pts) },
                triggerPlot :=
                  st.triggerPlot || decide (0 < (series.dataPoints ++ pts).length) }
                (cur' + 22)

/-- The per-frame channel loop, iterated `channelCount` times. -/
def decodeLoop (env : IngestEnv) (dv : DataView) :
    Nat → Nat → IngestState → IngestResult
  | 0, off, st => .ok st off
  | k + 1, off, st =>
    match processBlock env dv off st with
    | .ok st' off' => decodeLoop env dv k off' st'
    | .err st' => .err st'

/-- `processWebSocketMessage`: reads the channel count at fixed offset 4 and
runs the channel loop with the cursor starting at 0. The local trigger flags
start out false on every call. -/
def processWebSocketMessage (env : IngestEnv) (dv : DataView) (st : IngestState) :
    IngestResult :=
  match dv.getUint16 DataBytePosition.ChannelCount with
  | none => .err { st with triggerPlot := false, triggerDiscrete := false }
  | some channelCount =>
    decodeLoop env dv channelCount 0
      { st with triggerPlot := false, triggerDiscrete := false }

/-- Wire-format start offset (cursor value) of the `i`-th channel block:
each block advances the cursor by `4 * n + 22` where `n` is the sample count
declared in that block's header at cursor + 6. -/
def blockStart (dv : DataView) : Nat → Nat
  | 0 => 0
  | i + 1 =>
    blockStart dv i + 4 * dv.u16 (blockStart dv i + DataBytePosition.DataCount) + 22

/-- Sample count declared by the header of the `i`-th channel block. -/
def declaredSampleCount (dv : DataView) (i : Nat) : Nat :=
  dv.u16 (blockStart dv i + DataBytePosition.DataCount)

/-- Cursor position after running `k` blocks starting from `off`. -/
def advanceBy (dv : DataView) : Nat → Nat → Nat
  | 0, off => off
  | k + 1, off => advanceBy dv k (off + 4 * dv.u16 (off + DataBytePosition.DataCount) + 22)

theorem readPlotSamples_ok_cursor (dv : DataView) (timeDelta : ℚ) :
    ∀ (n cur : Nat) (t : ℚ) (acc pts : List Sample) (cur' : Nat),
      readPlotSamples dv timeDelta n cur t acc = .ok (pts, cur') → cur' = cur + 4 * n := by
  intro n
  induction n with
  | zero =>
    intro cur t acc pts cur' h
    simp only [readPlotSamples, Except.ok.injEq, Prod.mk.injEq] at h
    omega
  | succ m ih =>
    intro cur t acc pts cur' h
    simp only [readPlotSamples] at h
    cases hg : dv.getFloat32 (cur + DataBytePosition.Payload) with
    | none => rw [hg] at h; exact absurd h (by simp)
    | some v =>
      rw [hg] at h
      have := ih (cur + 4) (t + timeDelta) (acc ++ [⟨t, v⟩]) pts cur' h
      omega

theorem readDiscreteState_ok_cursor (dv : DataView) :
    ∀ (n cur : Nat) (v : DiscreteChannelState) (w : Bool)
      (v' : DiscreteChannelState) (w' : Bool) (cur' : Nat),
      readDiscreteState dv n cur v w = .ok (v', w', cur') → cur' = cur + 4 * n := by
  intro n
  induction n with
  | zero =>
    intro cur v w v' w' cur' h
    simp only [readDiscreteState, Except.ok.injEq, Prod.mk.injEq] at h
    omega
  | succ m ih =>
    intro cur v w v' w' cur' h
    simp only [readDiscreteState] at h
    cases hg : dv.getFloat32 (cur + DataBytePosition.Payload) with
    | none => rw [hg] at h; exact absurd h (by simp)
    | some d =>
      rw [hg] at h
      have := ih (cur + 4) (if d.isOne then .HIGH else .LOW) true v' w' cur' h
      omega

theorem processBlock_ok_cursor (env : IngestEnv) (dv : DataView) (off : Nat)
    (st st' : IngestState) (off' : Nat) (h : processBlock env dv off st = .ok st' off') :
    off' = off + 4 * dv.u16 (off + DataBytePosition.DataCount) + 22 := by
  unfold processBlock at h
  split at h
  · simp at h
  rename_i dataCount hu
  have hval : dv.u16 (off + DataBytePosition.DataCount) = dataCount := by
    unfold DataView.getUint16 at hu
    split at hu
    · exact Option.some.inj hu
    · simp at hu
  rw [hval]
  split at h
  · simp at h
  rename_i channelID h32
  split at h
  · simp at h
  rename_i timeStamp hts
  split at h
  · simp at h
  rename_i timeDelta htd
  split at h
  · -- channel not in the plot map
    split at h
    · -- discrete channel
      rename_i cur hd
      split at h
      · simp at h
      rename_i v w cur' hr
      simp only [IngestResult.ok.injEq] at h
      have := readDiscreteState_ok_cursor dv dataCount off cur false v w cur' hr
      omega
    · -- unwanted channel
      simp only [IngestResult.ok.injEq] at h
      omega
  · -- plot channel
    rename_i series hp
    split at h
    · simp at h
    rename_i pts cur' hr
    simp only [IngestResult.ok.injEq] at h
    have := readPlotSamples_ok_cursor dv timeDelta dataCount off
      (if epochTime_1904 < timeStamp then timeStamp - epochTime_1904 else timeStamp)
      [] pts cur' hr
    omega

theorem decodeLoop_ok_cursor (env : IngestEnv) (dv : DataView) :
    ∀ (k off : Nat) (st st' : IngestState) (off' : Nat),
      decodeLoop env dv k off st = .ok st' off' → off' = advanceBy dv k off := by
  intro k
  induction k with
  | zero =>
    intro off st st' off' h
    simp only [decodeLoop, IngestResult.ok.injEq] at h
    simp [advanceBy, h.2]
  | succ m ih =>
    intro off st st' off' h
    simp only [decodeLoop] at h
    cases hb : processBlock env dv off st with
    | err e => rw [hb] at h; exact absurd h (by simp)
    | ok st1 off1 =>
      rw [hb] at h
      have h1 := processBlock_ok_cursor env dv off st st1 off1 hb
      have h2 := ih off1 st1 st' off' h
      rw [h2, h1, advanceBy]

theorem advanceBy_blockStart (dv : DataView) :
    ∀ (k j : Nat), advanceBy dv k (blockStart dv j) = blockStart dv (j + k) := by
  intro k
  induction k with
  | zero => intro j; simp [advanceBy]
  | succ m ih =>
    intro j
    have : blockStart dv j + 4 * dv.u16 (blockStart dv j + DataBytePosition.DataCount) + 22 =
        blockStart dv (j + 1) := by rw [blockStart]
    rw [advanceBy, this, ih (j + 1)]
    congr 1
    omega

theorem blockStart_eq_sum (dv : DataView) :
    ∀ k : Nat, blockStart dv k = ∑ i in Finset.range k, (4 * declaredSampleCount dv i + 22) := by
  intro k
  induction k with
  | zero => simp [blockStart]
  | succ m ih =>
    rw [blockStart, Finset.sum_range_succ, declaredSampleCount, ih]
    omega

/-- C1. For every frame whose header declares `k` channel blocks, a decode
that runs to completion advances the read cursor from 0 to exactly
`Σ (4·nᵢ + 22)` where `nᵢ` is the sample count declared at block `i`'s
header (read at cursor + 6). The routing state `st` is universally
quantified and the final cursor does not depend on it, so the advance is the
same whether each block's channel is a plot channel, a discrete channel, or
unwanted; consequently block `i`'s header fields are read at the aligned
offsets `blockStart dv i + 6 / + 8 / + 12 / + 20` (that is how
`processBlock` is invoked at `blockStart`, which equals the partial sum). -/
theorem processWebSocketMessage_cursor_advance (env : IngestEnv) (dv : DataView)
    (st st' : IngestState) (off' : Nat)
    (h : processWebSocketMessage env dv st = .ok st' off') :
    off' = ∑ i in Finset.range (dv.u16 DataBytePosition.ChannelCount),
      (4 * declaredSampleCount dv i + 22) := by
  unfold processWebSocketMessage at h
  cases hu : dv.getUint16 DataBytePosition.ChannelCount with
  | none => rw [hu] at h; exact absurd h (by simp)
  | some channelCount =>
    rw [hu] at h
    have hval : dv.u16 DataBytePosition.ChannelCount = channelCount := by
      unfold DataView.getUint16 at hu
      by_cases hb : DataBytePosition.ChannelCount + 2 ≤ dv.len
      · rw [if_pos hb] at hu; exact Option.some.inj hu
      · rw [if_neg hb] at hu; exact absurd hu (by simp)
    have h0 : (0 : Nat) = blockStart dv 0 := rfl
    have hc := decodeLoop_ok_cursor env dv channelCount 0 _ st' off' h
    rw [h0, advanceBy_blockStart dv channelCount 0] at hc
    rw [hval, hc]
    simpa using blockStart_eq_sum dv channelCount

/-- A one-block frame whose single channel (id 7, 3 samples) is unwanted. -/
def dvC1 : DataView where
  len := 28
  u16 := fun off => if off = 4 then 1 else if off = 6 then 3 else 0
  u32 := fun _ => 7
  f64 := fun _ => 0
  f32 := fun _ => .num 0

def envDefault : IngestEnv where
  bufferTimeWindow := 5
  isZoomed := fun _ => false

def stEmpty : IngestState where
  activePlotChannels := []
  activeDiscreteChannels := []
  triggerPlot := false
  triggerDiscrete := false

/-- Witness for C1: decoding the concrete frame `dvC1` succeeds with final
cursor 34 = 4·3 + 22. -/
theorem processWebSocketMessage_cursor_advance_witness :
    (34 : Nat) = ∑ i in Finset.range (dvC1.u16 DataBytePosition.ChannelCount),
      (4 * declaredSampleCount dvC1 i + 22) :=
  processWebSocketMessage_cursor_advance envDefault dvC1 stEmpty stEmpty 34 (by decide)

/-- A malformed frame: the header declares 2 channel blocks but the buffer
(32 bytes) only contains the first block (channel 101, one sample). -/
def dvC7 : DataView where
  len := 32
  u16 := fun off => if off = 4 then 2 else if off = 6 then 1 else 0
  u32 := fun _ => 101
  f64 := fun off => if off = 12 then 10 else 1
  f32 := fun _ => .num 1

def seriesC7 : SeriesData where
  name := "101 - Temp"
  showInLegend := true
  visible := true
  dataPoints := []

def stC7 : IngestState where
  activePlotChannels := [(101, seriesC7)]
  activeDiscreteChannels := []
  triggerPlot := false
  triggerDiscrete := false

def stC7err : IngestState where
  activePlotChannels := [(101, { seriesC7 with dataPoints := [⟨10, .num 1⟩] })]
  activeDiscreteChannels := []
  triggerPlot := true
  triggerDiscrete := false

/-- C7. On the truncated frame `dvC7` the decoder hits the RangeError while
reading the second block's header (offset 32, past the 32-byte buffer) and
the decode aborts as an exception (`err`), with the first block's sample
already pushed into channel 101's buffer: the pre-frame state is NOT
restored (partial ingest), and the exception escapes the message handler
(the source has no try/catch around `processWebSocketMessage`). -/
theorem processWebSocketMessage_truncated_partial_ingest :
    processWebSocketMessage envDefault dvC7 stC7 = .err stC7err ∧
    stC7err.activePlotChannels.find 101 ≠ stC7.activePlotChannels.find 101 := by
  constructor
  · norm_num [processWebSocketMessage, decodeLoop, processBlock, DataView.getUint16,
      DataView.getUint32, DataView.getFloat64, DataView.getFloat32, readPlotSamples,
      readDiscreteState, trimBuffer, jsSlice, jsTrunc, JMap.find, JMap.set,
      epochTime_1904, DataBytePosition.ChannelCount, DataBytePosition.DataCount,
      DataBytePosition.ChannelUniqueId, DataBytePosition.TimeStamp,
      DataBytePosition.TimeDelta, DataBytePosition.Payload, envDefault, dvC7, stC7,
      stC7err, seriesC7]
  · decide

theorem readDiscreteState_ok_value (dv : DataView) :
    ∀ (n cur : Nat) (v : DiscreteChannelState) (w : Bool)
      (v' : DiscreteChannelState) (w' : Bool) (cur' : Nat),
      1 ≤ n → readDiscreteState dv n cur v w = .ok (v', w', cur') →
      v' = (if (dv.f32 (cur + 4 * (n - 1) + DataBytePosition.Payload)).isOne
            then .HIGH else .LOW) ∧ w' = true := by
  intro n
  induction n with
  | zero => intro cur v w v' w' cur' h1; exact absurd h1 (by omega)
  | succ m ih =>
    intro cur v w v' w' cur' h1 h
    simp only [readDiscreteState] at h
    cases hg : dv.getFloat32 (cur + DataBytePosition.Payload) with
    | none => rw [hg] at h; simp at h
    | some d =>
      rw [hg] at h
      have hd : dv.f32 (cur + DataBytePosition.Payload) = d := by
        unfold DataView.getFloat32 at hg
        split at hg
        · exact Option.some.inj hg
        · simp at hg
      cases m with
      | zero =>
        simp only [readDiscreteState, Except.ok.injEq, Prod.mk.injEq] at h
        refine ⟨?_, h.2.1.symm⟩
        rw [← h.1]
        simp [hd]
      | succ k =>
        have hrec := ih (cur + 4) (if d.isOne then .HIGH else .LOW) true v' w' cur'
          (by omega) h
        have harg : cur + 4 + 4 * (k + 1 - 1) + DataBytePosition.Payload =
            cur + 4 * (k + 1 + 1 - 1) + DataBytePosition.Payload := by omega
        rw [harg] at hrec
        exact hrec

/-- C10. A block for a discrete channel (present in the discrete map, absent
from the plot map) with `n ≥ 1` declared samples, decoded successfully,
overwrites that channel's entry with a single two-valued state determined
only by the block's LAST sample: HIGH when its float value is strictly equal
to 1, LOW for every other value (0, 2, negatives, NaN — `FVal.isOne` is
false on `nan`). The plot buffers are untouched, and no timestamps, deltas
or sample history are retained (the map stores only the two-valued state);
the cursor advances by the uniform `4·n + 22`. -/
theorem processBlock_discrete_last_sample (env : IngestEnv) (dv : DataView)
    (off : Nat) (st st' : IngestState) (off' : Nat) (cur : DiscreteChannelState)
    (n : Nat)
    (hn : dv.u16 (off + DataBytePosition.DataCount) = n)
    (hn1 : 1 ≤ n)
    (hplot : st.activePlotChannels.find
      (dv.u32 (off + DataBytePosition.ChannelUniqueId)) = none)
    (hdisc : st.activeDiscreteChannels.find
      (dv.u32 (off + DataBytePosition.ChannelUniqueId)) = some cur)
    (h : processBlock env dv off st = .ok st' off') :
    st'.activeDiscreteChannels =
      st.activeDiscreteChannels.set
        (dv.u32 (off + DataBytePosition.ChannelUniqueId))
        (if (dv.f32 (off + 4 * (n - 1) + DataBytePosition.Payload)).isOne
         then DiscreteChannelState.HIGH else DiscreteChannelState.LOW) ∧
    st'.activePlotChannels = st.activePlotChannels ∧
    st'.triggerDiscrete = true ∧
    off' = off + 4 * n + 22 := by
  unfold processBlock at h
  split at h
  · simp at h
  rename_i dataCount hu
  have hval : dv.u16 (off + DataBytePosition.DataCount) = dataCount := by
    unfold DataView.getUint16 at hu
    split at hu
    · exact Option.some.inj hu
    · simp at hu
  split at h
  · simp at h
  rename_i channelID h32
  have hcid : dv.u32 (off + DataBytePosition.ChannelUniqueId) = channelID := by
    unfold DataView.getUint32 at h32
    split at h32
    · exact Option.some.inj h32
    · simp at h32
  split at h
  · simp at h
  rename_i timeStamp hts
  split at h
  · simp at h
  rename_i timeDelta htd
  rw [hcid] at hplot hdisc
  have hnn : n = dataCount := by rw [← hval, hn]
  subst hnn
  split at h
  · split at h
    · rename_i cur2 hd
      rw [hdisc] at hd
      split at h
      · simp at h
      rename_i v w cur' hr
      have hvv := readDiscreteState_ok_value dv n off cur2 false v w cur' hn1 hr
      have hcc := readDiscreteState_ok_cursor dv n off cur2 false v w cur' hr
      simp only [IngestResult.ok.injEq] at h
      obtain ⟨hst, hoff⟩ := h
      rw [← hst]
      refine ⟨?_, rfl, ?_, by omega⟩
      · simp only [hcid, hvv.1]
      · simp [hvv.2]
    · rename_i hd
      rw [hdisc] at hd
      simp at hd
  · rename_i series hp
    rw [hplot] at hp
    simp at hp

/-- A one-block frame for discrete channel 55 with 2 samples, the last NaN. -/
def dvC10 : DataView where
  len := 36
  u16 := fun off => if off = 4 then 1 else if off = 6 then 2 else 0
  u32 := fun _ => 55
  f64 := fun _ => 0
  f32 := fun off => if off = 28 then .num 1 else .nan

def stC10 : IngestState where
  activePlotChannels := []
  activeDiscreteChannels := [(55, .HIGH)]
  triggerPlot := false
  triggerDiscrete := false

def stC10' : IngestState where
  activePlotChannels := []
  activeDiscreteChannels := [(55, .LOW)]
  triggerPlot := false
  triggerDiscrete := true

/-- Witness for C10: a two-sample discrete block (first sample 1, last NaN)
ends in LOW — the state is decided by the last sample alone. -/
theorem processBlock_discrete_last_sample_witness :
    stC10'.activeDiscreteChannels =
      stC10.activeDiscreteChannels.set
        (dvC10.u32 (0 + DataBytePosition.ChannelUniqueId))
        (if (dvC10.f32 (0 + 4 * (2 - 1) + DataBytePosition.Payload)).isOne
         then DiscreteChannelState.HIGH else DiscreteChannelState.LOW) ∧
    stC10'.activePlotChannels = stC10.activePlotChannels ∧
    stC10'.triggerDiscrete = true ∧
    (30 : Nat) = 0 + 4 * 2 + 22 :=
  processBlock_discrete_last_sample envDefault dvC10 0 stC10 stC10' 30 .HIGH 2
    (by decide) (by decide) (by decide) (by decide) (by decide)

theorem jsSlice_neg_of_pos {α : Type} (l : List α) (q : ℚ) (hq : 0 < q) :
    jsSlice l (-q) =
      if (⌊q⌋).toNat = 0 then l else l.drop (l.length - (⌊q⌋).toNat) := by
  unfold jsSlice jsTrunc
  have h1 : ¬ (0 ≤ -q) := by
    rw [neg_nonneg]
    exact not_le.mpr hq
  rw [if_neg h1, Int.ceil_neg]
  have hk0 : 0 ≤ ⌊q⌋ := Int.floor_nonneg.mpr hq.le
  by_cases h0 : (⌊q⌋).toNat = 0
  · have hz : ⌊q⌋ = 0 := by omega
    rw [if_pos h0, hz]
    simp
  · have h1' : 1 ≤ ⌊q⌋ := by omega
    rw [if_neg h0, if_pos (by omega : -⌊q⌋ < 0)]
    congr 1
    omega

theorem cast_le_floor_iff (n : Nat) (r : ℚ) (h0 : 0 ≤ ⌊r⌋) :
    n ≤ (⌊r⌋).toNat ↔ (n : ℚ) ≤ r := by
  rw [show ((n : ℚ) ≤ r ↔ (n : Int) ≤ ⌊r⌋) from (Int.le_floor).symm]
  omega

theorem floor_lt_cast_iff (n : Nat) (r : ℚ) :
    (⌊r⌋).toNat < n ∧ 0 ≤ ⌊r⌋ → r < (n : ℚ) := by
  intro h
  have : ⌊r⌋ < (n : Int) := by omega
  exact_mod_cast Int.floor_lt.mp this

/-- C2 (amended). Retention policy of the ingest path, for a positive sample
delta and a positive configured window. Not zoomed: a buffer of at most
`maxSamples = ⌊W/d⌋` entries is left untrimmed; a longer buffer is cut to
exactly the most recent `maxSamples` entries in original order (drop from
the front) — except in the degenerate case `⌊W/d⌋ = 0` (delta exceeding the
window), where `Array.slice(-0)` keeps the whole buffer. Zoomed, with the
configured window at most the 180 s zoom cap (every selectable window, 1, 2,
5 or 8 s, satisfies this): the cap is `⌊180/d⌋` instead, with the same
degenerate-case proviso. -/
theorem trimBuffer_retention (W d : ℚ) (buf : List Sample)
    (hd : 0 < d) (hW : 0 < W) :
    ((buf.length ≤ (⌊W / d⌋).toNat → trimBuffer W false d buf = buf) ∧
     (1 ≤ (⌊W / d⌋).toNat → (⌊W / d⌋).toNat < buf.length →
       trimBuffer W false d buf = buf.drop (buf.length - (⌊W / d⌋).toNat) ∧
       (trimBuffer W false d buf).length = (⌊W / d⌋).toNat) ∧
     ((⌊W / d⌋).toNat = 0 → trimBuffer W false d buf = buf)) ∧
    (W ≤ 180 →
     ((buf.length ≤ (⌊(180 : ℚ) / d⌋).toNat → trimBuffer W true d buf = buf) ∧
      (1 ≤ (⌊(180 : ℚ) / d⌋).toNat → (⌊(180 : ℚ) / d⌋).toNat < buf.length →
        trimBuffer W true d buf = buf.drop (buf.length - (⌊(180 : ℚ) / d⌋).toNat) ∧
        (trimBuffer W true d buf).length = (⌊(180 : ℚ) / d⌋).toNat) ∧
      ((⌊(180 : ℚ) / d⌋).toNat = 0 → trimBuffer W true d buf = buf))) := by
  have hdiv : 1 / d * W = W / d := one_div_mul_eq_div d W
  have hWd : 0 < W / d := div_pos hW hd
  have hfl0 : 0 ≤ ⌊W / d⌋ := Int.floor_nonneg.mpr hWd.le
  have hdiv180 : 1 / d * (180 : ℚ) = (180 : ℚ) / d := one_div_mul_eq_div d 180
  have h180 : 0 < (180 : ℚ) / d := div_pos (by norm_num) hd
  have hfl180 : 0 ≤ ⌊(180 : ℚ) / d⌋ := Int.floor_nonneg.mpr h180.le
  refine ⟨⟨?_, ?_, ?_⟩, ?_⟩
  · intro hle
    have : ¬ (W / d < (buf.length : ℚ)) :=
      not_lt.mpr ((cast_le_floor_iff buf.length (W / d) hfl0).mp hle)
    unfold trimBuffer
    rw [hdiv, if_neg this]
  · intro h1 hlt
    have hcond : W / d < (buf.length : ℚ) := floor_lt_cast_iff buf.length (W / d) ⟨hlt, hfl0⟩
    unfold trimBuffer
    rw [hdiv, if_pos hcond, if_pos rfl, jsSlice_neg_of_pos buf (W / d) hWd,
      if_neg (by omega)]
    exact ⟨rfl, by rw [List.length_drop]; omega⟩
  · intro h0
    unfold trimBuffer
    by_cases hcond : W / d < (buf.length : ℚ)
    · rw [hdiv, if_pos hcond, if_pos rfl, jsSlice_neg_of_pos buf (W / d) hWd, if_pos h0]
    · rw [hdiv, if_neg hcond]
  · intro hW180
    have hmono : W / d ≤ (180 : ℚ) / d := by
      gcongr
    refine ⟨?_, ?_, ?_⟩
    · intro hle
      have hno : ¬ ((180 : ℚ) / d < (buf.length : ℚ)) :=
        not_lt.mpr ((cast_le_floor_iff buf.length ((180 : ℚ) / d) hfl180).mp hle)
      unfold trimBuffer
      by_cases hcond : W / d < (buf.length : ℚ)
      · rw [hdiv, if_pos hcond]
        simp only [Bool.true_eq_false, if_false, hdiv180, if_neg hno]
      · rw [hdiv, if_neg hcond]
    · intro h1 hlt
      have hcondZ : (180 : ℚ) / d < (buf.length : ℚ) :=
        floor_lt_cast_iff buf.length ((180 : ℚ) / d) ⟨hlt, hfl180⟩
      have hcond : W / d < (buf.length : ℚ) := lt_of_le_of_lt hmono hcondZ
      unfold trimBuffer
      rw [hdiv, if_pos hcond]
      simp only [Bool.true_eq_false, if_false, hdiv180, if_pos hcondZ]
      rw [jsSlice_neg_of_pos buf ((180 : ℚ) / d) h180, if_neg (by omega)]
      exact ⟨rfl, by rw [List.length_drop]; omega⟩
    · intro h0
      unfold trimBuffer
      by_cases hcond : W / d < (buf.length : ℚ)
      · rw [hdiv, if_pos hcond]
        simp only [Bool.true_eq_false, if_false, hdiv180]
        by_cases hcondZ : (180 : ℚ) / d < (buf.length : ℚ)
        · rw [if_pos hcondZ, jsSlice_neg_of_pos buf ((180 : ℚ) / d) h180, if_pos h0]
        · rw [if_neg hcondZ]
      · rw [hdiv, if_neg hcond]

def sampleC2 : Sample := ⟨0, .num 0⟩

/-- C2 counterexample. With window 5 s and delta 10 s, `maxSamples = ⌊5/10⌋ = 0`
and a 1-element buffer exceeds it, yet the trim leaves the buffer whole
(`slice(-0.5)` truncates its argument to `-0`, i.e. start index 0) instead of
cutting it to exactly `maxSamples = 0` entries as the claim states. -/
theorem trimBuffer_degenerate_counterexample :
    (⌊(5 : ℚ) / 10⌋).toNat = 0 ∧
    (⌊(5 : ℚ) / 10⌋).toNat < [sampleC2].length ∧
    trimBuffer 5 false 10 [sampleC2] = [sampleC2] ∧
    [sampleC2] ≠ ([] : List Sample) := by
  have hfl : ⌊(5 : ℚ) / 10⌋ = 0 := by
    rw [Int.floor_eq_zero_iff, Set.mem_Ico]
    norm_num
  refine ⟨by rw [hfl]; rfl, by rw [hfl]; norm_num, ?_, by simp⟩
  unfold trimBuffer
  have hcond : (1 : ℚ) / 10 * 5 < (([sampleC2] : List Sample).length : ℚ) := by
    norm_num
  rw [if_pos hcond, if_pos rfl,
    jsSlice_neg_of_pos [sampleC2] (1 / 10 * 5) (by norm_num)]
  have hfl2 : ⌊(1 : ℚ) / 10 * 5⌋ = 0 := by
    rw [Int.floor_eq_zero_iff, Set.mem_Ico]
    norm_num
  rw [if_pos (by rw [hfl2]; rfl)]

/-- Witness for C2 at the spec's own scenario: window 5 s, delta 0.1 s,
80 ingested samples; the buffer is cut to the most recent 50. -/
theorem trimBuffer_retention_witness :
    trimBuffer 5 false (1 / 10) (List.replicate 80 sampleC2) =
      (List.replicate 80 sampleC2).drop ((List.replicate 80 sampleC2).length - 50) ∧
    (trimBuffer 5 false (1 / 10) (List.replicate 80 sampleC2)).length = 50 := by
  have hfl : (⌊(5 : ℚ) / (1 / 10)⌋).toNat = 50 := by
    rw [show (5 : ℚ) / (1 / 10) = ((50 : Nat) : ℚ) by norm_num, Int.floor_natCast]
    rfl
  have h := (trimBuffer_retention 5 (1 / 10) (List.replicate 80 sampleC2)
    (by norm_num) (by norm_num)).1.2.1
    (by rw [hfl]; norm_num) (by rw [hfl]; simp)
  rw [hfl] at h
  exact h

/-- `ChannelGroup` from ConfiguredChannelSchema.ts. -/
structure ChannelGroup where
  id : String
  name : String
  channels : List String
deriving DecidableEq

/-- The routing table of the Plots component: the unassigned pool
(`availableChannels`) and the named groups (`channelGroups`). Channels are
carried as their display strings. -/
structure RoutingState where
  availableChannels : List String
  channelGroups : List ChannelGroup
deriving DecidableEq

/-- Lexicographic code-point comparison on character lists. -/
def charListLe : List Char → List Char → Bool
  | [], _ => true
  | _ :: _, [] => false
  | c1 :: r1, c2 :: r2 =>
    if c1.toNat < c2.toNat then true
    else if c2.toNat < c1.toNat then false
    else charListLe r1 r2

/-- `[...].sort((a, b) => a.localeCompare(b))`. `localeCompare` is a
locale-dependent collation; it is modelled as a fixed total order (code-point
lexicographic). Every property proved below depends only on the result being
a permutation of the input. -/
def sortChannels (l : List String) : List String :=
  l.insertionSort (fun a b => charListLe a.data b.data = true)

/-- The droppable id of the unassigned pool. -/
def availablePoolId : String := "available-channels"

/-- `addChannelToTargetGroup` of Plots.tsx: pushes the channel onto the first
group with the destination id, unless already present. -/
def addChannelToTargetGroup : List ChannelGroup → String → String → List ChannelGroup
  | [], _, _ => []
  | g :: gs, channelId, destId =>
    if g.id = destId then
      (if channelId ∈ g.channels then g
       else { g with channels := g.channels ++ [channelId] }) :: gs
    else g :: addChannelToTargetGroup gs channelId destId

/-- `deleteChannelFromSourceGroup` of Plots.tsx: filters the channel out of
the first group with the source id. -/
def deleteChannelFromSourceGroup : List ChannelGroup → String → String → List ChannelGroup
  | [], _, _ => []
  | g :: gs, channelId, sourceId =>
    if g.id = sourceId then
      { g with channels := g.channels.filter (fun ch => decide (ch ≠ channelId)) } :: gs
    else g :: deleteChannelFromSourceGroup gs channelId sourceId

/-- `handleDragEnd` of Plots.tsx (the drop cases; the no-destination and
same-droppable drops are no-ops). -/
def handleDragEnd (st : RoutingState) (sourceId destId channelId : String) : RoutingState :=
  if sourceId = destId then st
  else if sourceId = availablePoolId then
    { availableChannels := st.availableChannels.filter (fun ch => decide (ch ≠ channelId)),
      channelGroups := addChannelToTargetGroup st.channelGroups channelId destId }
  else if destId = availablePoolId then
    { availableChannels := sortChannels (st.availableChannels ++ [channelId]),
      channelGroups := deleteChannelFromSourceGroup st.channelGroups channelId sourceId }
  else
    { availableChannels := st.availableChannels,
      channelGroups :=
        deleteChannelFromSourceGroup
          (addChannelToTargetGroup st.channelGroups channelId destId) channelId sourceId }

/-- `createNewGroup` of Plots.tsx; `uid` models the fresh `uuidv4()`. -/
def createNewGroup (st : RoutingState) (uid nm : String) : RoutingState :=
  { st with
    channelGroups := st.channelGroups ++ [{ id := uid, name := nm, channels := [] }] }

/-- `deleteGroup` of Plots.tsx: the deleted group's members are appended to
the pool (then sorted), and the group is filtered out. -/
def deleteGroup (st : RoutingState) (groupId : String) : RoutingState :=
  match st.channelGroups.find? (fun g => decide (g.id = groupId)) with
  | some groupToDelete =>
    { availableChannels := sortChannels (st.availableChannels ++ groupToDelete.channels),
      channelGroups := st.channelGroups.filter (fun g => decide (g.id ≠ groupId)) }
  | none =>
    { st with channelGroups := st.channelGroups.filter (fun g => decide (g.id ≠ groupId)) }

/-- `removeChannelFromGroup` of Plots.tsx: if the group exists, the channel
is filtered out of it and appended to the pool. -/
def removeChannelFromGroup (st : RoutingState) (groupId channel : String) : RoutingState :=
  match st.channelGroups.find? (fun g => decide (g.id = groupId)) with
  | some _ =>
    { availableChannels := sortChannels (st.availableChannels ++ [channel]),
      channelGroups := deleteChannelFromSourceGroup st.channelGroups channel groupId }
  | none => st

/-- The routing-table part of `handlePlotChannelSelect` of Plots.tsx:
replaces the wanted set. The pool keeps its still-selected entries and gains
the selected channels assigned to no bucket; each group keeps only its
still-selected channels. -/
def handlePlotChannelSelect (st : RoutingState) (selectedChannels : List String) :
    RoutingState :=
  { availableChannels :=
      sortChannels
        ((st.availableChannels.filter (fun ch => decide (ch ∈ selectedChannels))) ++
          selectedChannels.filter
            (fun ch =>
              decide (ch ∉ (st.channelGroups.map (fun g => g.channels)).flatten) &&
              decide (ch ∉ st.availableChannels.filter
                (fun c2 => decide (c2 ∈ selectedChannels))))),
    channelGroups := st.channelGroups.map
      (fun g =>
        { g with channels := g.channels.filter (fun ch => decide (ch ∈ selectedChannels)) }) }

/-- The routing operations reachable from the UI. -/
inductive RoutingOp where
  | select (selectedChannels : List String)
  | dragEnd (sourceId destId channelId : String)
  | createGroup (uid nm : String)
  | deleteGrp (groupId : String)
  | removeFromGroup (groupId channel : String)

def applyRoutingOp (st : RoutingState) : RoutingOp → RoutingState
  | .select sel => handlePlotChannelSelect st sel
  | .dragEnd s d c => handleDragEnd st s d c
  | .createGroup u n => createNewGroup st u n
  | .deleteGrp gid => deleteGroup st gid
  | .removeFromGroup gid c => removeChannelFromGroup st gid c

def groupIds (st : RoutingState) : List String := st.channelGroups.map (fun g => g.id)

/-- Whether `ch` is currently rendered inside the droppable `bucketId`. -/
def inBucket (st : RoutingState) (bucketId ch : String) : Bool :=
  if bucketId = availablePoolId then decide (ch ∈ st.availableChannels)
  else
    match st.channelGroups.find? (fun g => decide (g.id = bucketId)) with
    | some g => decide (ch ∈ g.channels)
    | none => false

/-- The operations the UI can actually issue: a drag starts on a channel
rendered in its source droppable and ends on an existing droppable; group
creation uses a fresh uuid (never the pool id); the per-channel remove
button exists only for channels rendered inside that group. -/
def validRoutingOp (st : RoutingState) : RoutingOp → Bool
  | .select _ => true
  | .dragEnd s d c =>
    (decide (d = availablePoolId) || decide (d ∈ groupIds st)) && inBucket st s c
  | .createGroup u _ => decide (u ∉ groupIds st) && decide (u ≠ availablePoolId)
  | .deleteGrp _ => true
  | .removeFromGroup gid c =>
    match st.channelGroups.find? (fun g => decide (g.id = gid)) with
    | some g => decide (c ∈ g.channels)
    | none => false

def applyRoutingOps (st : RoutingState) : List RoutingOp → RoutingState
  | [] => st
  | op :: ops => applyRoutingOps (applyRoutingOp st op) ops

def validRoutingOps (st : RoutingState) : List RoutingOp → Bool
  | [] => true
  | op :: ops => validRoutingOp st op && validRoutingOps (applyRoutingOp st op) ops

def initialRoutingState : RoutingState :=
  { availableChannels := [], channelGroups := [] }

/-- In how many buckets (pool plus groups) `ch` currently appears. -/
def occurrences (st : RoutingState) (ch : String) : Nat :=
  (if ch ∈ st.availableChannels then 1 else 0) +
    st.channelGroups.countP (fun g => decide (ch ∈ g.channels))

/-- Channel-disjointness of two groups. -/
def disjointChannels (g h : ChannelGroup) : Prop :=
  ∀ ch, ch ∈ g.channels → ch ∉ h.channels

/-- The one-bucket invariant: group ids are distinct, no channel is both in
the pool and in a group, and no channel is in two groups. -/
structure RoutingInv (st : RoutingState) : Prop where
  nodupIds : (st.channelGroups.map (fun g => g.id)).Nodup
  poolDisjoint : ∀ g ∈ st.channelGroups, ∀ ch ∈ g.channels, ch ∉ st.availableChannels
  groupsDisjoint : st.channelGroups.Pairwise disjointChannels

theorem mem_sortChannels (l : List String) (ch : String) :
    ch ∈ sortChannels l ↔ ch ∈ l :=
  (List.perm_insertionSort _ l).mem_iff

theorem add_cons_pos (g : ChannelGroup) (rest : List ChannelGroup) (c d : String)
    (h : g.id = d) :
    addChannelToTargetGroup (g :: rest) c d =
      (if c ∈ g.channels then g else { g with channels := g.channels ++ [c] }) :: rest := by
  simp only [addChannelToTargetGroup]
  rw [if_pos h]

theorem add_cons_neg (g : ChannelGroup) (rest : List ChannelGroup) (c d : String)
    (h : ¬ g.id = d) :
    addChannelToTargetGroup (g :: rest) c d = g :: addChannelToTargetGroup rest c d := by
  simp only [addChannelToTargetGroup]
  rw [if_neg h]

theorem delete_cons_pos (g : ChannelGroup) (rest : List ChannelGroup) (c s : String)
    (h : g.id = s) :
    deleteChannelFromSourceGroup (g :: rest) c s =
      { g with channels := g.channels.filter (fun ch => decide (ch ≠ c)) } :: rest := by
  simp only [deleteChannelFromSourceGroup]
  rw [if_pos h]

theorem delete_cons_neg (g : ChannelGroup) (rest : List ChannelGroup) (c s : String)
    (h : ¬ g.id = s) :
    deleteChannelFromSourceGroup (g :: rest) c s =
      g :: deleteChannelFromSourceGroup rest c s := by
  simp only [deleteChannelFromSourceGroup]
  rw [if_neg h]

theorem addChannelToTargetGroup_ids (gs : List ChannelGroup) (c d : String) :
    (addChannelToTargetGroup gs c d).map (fun g => g.id) = gs.map (fun g => g.id) := by
  induction gs with
  | nil => rfl
  | cons g rest ih =>
    by_cases h : g.id = d
    · rw [add_cons_pos g rest c d h]
      by_cases hc : c ∈ g.channels
      · rw [if_pos hc]
      · rw [if_neg hc]
        simp
    · rw [add_cons_neg g rest c d h]
      simp [ih]

theorem deleteChannelFromSourceGroup_ids (gs : List ChannelGroup) (c s : String) :
    (deleteChannelFromSourceGroup gs c s).map (fun g => g.id) = gs.map (fun g => g.id) := by
  induction gs with
  | nil => rfl
  | cons g rest ih =>
    by_cases h : g.id = s
    · rw [delete_cons_pos g rest c s h]
      simp
    · rw [delete_cons_neg g rest c s h]
      simp [ih]

theorem mem_addChannelToTargetGroup (gs : List ChannelGroup) (c d x : String)
    (g' : ChannelGroup) (hg' : g' ∈ addChannelToTargetGroup gs c d)
    (hx : x ∈ g'.channels) :
    (∃ g ∈ gs, x ∈ g.channels) ∨ x = c := by
  induction gs with
  | nil => simp [addChannelToTargetGroup] at hg'
  | cons g rest ih =>
    by_cases h : g.id = d
    · rw [add_cons_pos g rest c d h] at hg'
      by_cases hc : c ∈ g.channels
      · rw [if_pos hc] at hg'
        rcases List.mem_cons.mp hg' with hgg | hmem
        · exact .inl ⟨g, List.mem_cons_self g rest, hgg ▸ hx⟩
        · exact .inl ⟨g', List.mem_cons_of_mem _ hmem, hx⟩
      · rw [if_neg hc] at hg'
        rcases List.mem_cons.mp hg' with hgg | hmem
        · rw [hgg] at hx
          rcases List.mem_append.mp hx with hx1 | hx2
          · exact .inl ⟨g, List.mem_cons_self g rest, hx1⟩
          · exact .inr (by simpa using hx2)
        · exact .inl ⟨g', List.mem_cons_of_mem _ hmem, hx⟩
    · rw [add_cons_neg g rest c d h] at hg'
      rcases List.mem_cons.mp hg' with hgg | hmem
      · exact .inl ⟨g, List.mem_cons_self g rest, hgg ▸ hx⟩
      · rcases ih hmem with ⟨g2, hg2, hx2⟩ | hxc
        · exact .inl ⟨g2, List.mem_cons_of_mem _ hg2, hx2⟩
        · exact .inr hxc

theorem mem_deleteChannelFromSourceGroup (gs : List ChannelGroup) (c s x : String)
    (g' : ChannelGroup) (hg' : g' ∈ deleteChannelFromSourceGroup gs c s)
    (hx : x ∈ g'.channels) :
    ∃ g ∈ gs, x ∈ g.channels := by
  induction gs with
  | nil => simp [deleteChannelFromSourceGroup] at hg'
  | cons g rest ih =>
    by_cases h : g.id = s
    · rw [delete_cons_pos g rest c s h] at hg'
      rcases List.mem_cons.mp hg' with hgg | hmem
      · refine ⟨g, List.mem_cons_self g rest, ?_⟩
        rw [hgg] at hx
        exact List.mem_of_mem_filter hx
      · exact ⟨g', List.mem_cons_of_mem _ hmem, hx⟩
    · rw [delete_cons_neg g rest c s h] at hg'
      rcases List.mem_cons.mp hg' with hgg | hmem
      · exact ⟨g, List.mem_cons_self g rest, hgg ▸ hx⟩
      · obtain ⟨g2, h2, hx2⟩ := ih hmem
        exact ⟨g2, List.mem_cons_of_mem _ h2, hx2⟩

theorem disjointChannels_symm : Symmetric disjointChannels := by
  intro g h hgh ch hch hmem
  exact hgh ch hmem hch

theorem addChannelToTargetGroup_pairwise (gs : List ChannelGroup) (c d : String)
    (hpw : gs.Pairwise disjointChannels)
    (hc : ∀ g ∈ gs, c ∉ g.channels) :
    (addChannelToTargetGroup gs c d).Pairwise disjointChannels := by
  induction gs with
  | nil => simp [addChannelToTargetGroup]
  | cons g rest ih =>
    rw [List.pairwise_cons] at hpw
    obtain ⟨hgrest, hrest⟩ := hpw
    by_cases h : g.id = d
    · rw [add_cons_pos g rest c d h]
      by_cases hcg : c ∈ g.channels
      · rw [if_pos hcg]
        exact List.Pairwise.cons hgrest hrest
      · rw [if_neg hcg, List.pairwise_cons]
        refine ⟨?_, hrest⟩
        intro g2 hg2 ch hch
        rcases List.mem_append.mp hch with hch1 | hch2
        · exact hgrest g2 hg2 ch hch1
        · have hche : ch = c := by simpa using hch2
          rw [hche]
          exact hc g2 (List.mem_cons_of_mem _ hg2)
    · rw [add_cons_neg g rest c d h, List.pairwise_cons]
      refine ⟨?_, ih hrest (fun g2 hg2 => hc g2 (List.mem_cons_of_mem _ hg2))⟩
      intro g2 hg2 ch hch hmem2
      rcases mem_addChannelToTargetGroup rest c d ch g2 hg2 hmem2 with ⟨g3, hg3, hx3⟩ | hceq
      · exact (hgrest g3 hg3 ch hch) hx3
      · exact (hc g (List.mem_cons_self g rest)) (hceq ▸ hch)

theorem deleteChannelFromSourceGroup_pairwise (gs : List ChannelGroup) (c s : String)
    (hpw : gs.Pairwise disjointChannels) :
    (deleteChannelFromSourceGroup gs c s).Pairwise disjointChannels := by
  induction gs with
  | nil => simp [deleteChannelFromSourceGroup]
  | cons g rest ih =>
    rw [List.pairwise_cons] at hpw
    obtain ⟨hgrest, hrest⟩ := hpw
    by_cases h : g.id = s
    · rw [delete_cons_pos g rest c s h, List.pairwise_cons]
      refine ⟨?_, hrest⟩
      intro g2 hg2 ch hch
      exact hgrest g2 hg2 ch (List.mem_of_mem_filter hch)
    · rw [delete_cons_neg g rest c s h, List.pairwise_cons]
      refine ⟨?_, ih hrest⟩
      intro g2 hg2 ch hch hmem2
      obtain ⟨g3, hg3, hx3⟩ := mem_deleteChannelFromSourceGroup rest c s ch g2 hg2 hmem2
      exact (hgrest g3 hg3 ch hch) hx3

theorem not_mem_deleteChannelFromSourceGroup (gs : List ChannelGroup) (c s : String)
    (hpw : gs.Pairwise disjointChannels) (g0 : ChannelGroup)
    (hfind : gs.find? (fun g => decide (g.id = s)) = some g0)
    (hc : c ∈ g0.channels) :
    ∀ g' ∈ deleteChannelFromSourceGroup gs c s, c ∉ g'.channels := by
  induction gs with
  | nil => simp at hfind
  | cons g rest ih =>
    rw [List.pairwise_cons] at hpw
    obtain ⟨hgrest, hrest⟩ := hpw
    by_cases h : g.id = s
    · rw [delete_cons_pos g rest c s h]
      have hg0 : g0 = g := by
        rw [List.find?_cons_of_pos _ (by simpa using h)] at hfind
        exact (Option.some.inj hfind).symm
      subst hg0
      intro g' hg'
      rcases List.mem_cons.mp hg' with hgg | hmem
      · rw [hgg]
        intro hmm
        have := List.of_mem_filter hmm
        simp at this
      · intro hmm
        exact (hgrest g' hmem c hc) hmm
    · rw [delete_cons_neg g rest c s h]
      have hfind' : rest.find? (fun g => decide (g.id = s)) = some g0 := by
        rwa [List.find?_cons_of_neg _ (by simpa using h)] at hfind
      intro g' hg'
      rcases List.mem_cons.mp hg' with hgg | hmem
      · rw [hgg]
        intro hmm
        have hg0mem : g0 ∈ rest := List.mem_of_find?_eq_some hfind'
        exact (hgrest g0 hg0mem c hmm) hc
      · exact ih hrest hfind' g' hmem

theorem addChannelToTargetGroup_delete_comm (gs : List ChannelGroup) (c s d : String)
    (hsd : s ≠ d) :
    deleteChannelFromSourceGroup (addChannelToTargetGroup gs c d) c s =
      addChannelToTargetGroup (deleteChannelFromSourceGroup gs c s) c d := by
  induction gs with
  | nil => rfl
  | cons g rest ih =>
    by_cases hd : g.id = d
    · have hs : ¬ g.id = s := fun hgs => hsd (hgs.symm.trans hd)
      rw [add_cons_pos g rest c d hd, delete_cons_neg g rest c s hs]
      by_cases hc : c ∈ g.channels
      · rw [if_pos hc, delete_cons_neg g rest c s hs, add_cons_pos g _ c d hd, if_pos hc]
      · rw [if_neg hc,
          delete_cons_neg { g with channels := g.channels ++ [c] } rest c s hs,
          add_cons_pos g _ c d hd, if_neg hc]
    · by_cases hs : g.id = s
      · rw [add_cons_neg g rest c d hd, delete_cons_pos g _ c s hs,
          delete_cons_pos g rest c s hs,
          add_cons_neg { g with
            channels := g.channels.filter (fun ch => decide (ch ≠ c)) } rest c d hd]
      · rw [add_cons_neg g rest c d hd, delete_cons_neg g _ c s hs,
          delete_cons_neg g rest c s hs, add_cons_neg g _ c d hd, ih]

theorem inBucket_group (st : RoutingState) (s c : String) (hsp : ¬ s = availablePoolId)
    (hvb : inBucket st s c = true) :
    ∃ g0, st.channelGroups.find? (fun g => decide (g.id = s)) = some g0 ∧
      c ∈ g0.channels := by
  unfold inBucket at hvb
  rw [if_neg hsp] at hvb
  cases hf : st.channelGroups.find? (fun g => decide (g.id = s)) with
  | none => rw [hf] at hvb; simp at hvb
  | some g0 =>
    rw [hf] at hvb
    exact ⟨g0, rfl, by simpa using hvb⟩

theorem routingInv_handlePlotChannelSelect (st : RoutingState) (sel : List String)
    (hinv : RoutingInv st) : RoutingInv (handlePlotChannelSelect st sel) := by
  refine ⟨?_, ?_, ?_⟩
  · simpa [handlePlotChannelSelect, List.map_map, Function.comp] using hinv.nodupIds
  · intro g' hg' ch hch hpool
    simp only [handlePlotChannelSelect] at hg' hpool
    obtain ⟨g, hg, hgeq⟩ := List.mem_map.mp hg'
    rw [← hgeq] at hch
    have hchg : ch ∈ g.channels := List.mem_of_mem_filter hch
    rw [mem_sortChannels] at hpool
    rcases List.mem_append.mp hpool with hA | hB
    · exact (hinv.poolDisjoint g hg ch hchg) (List.mem_of_mem_filter hA)
    · have hcond := List.of_mem_filter hB
      simp only [Bool.and_eq_true, decide_eq_true_eq] at hcond
      exact hcond.1
        (List.mem_flatten.mpr ⟨g.channels, List.mem_map.mpr ⟨g, hg, rfl⟩, hchg⟩)
  · simp only [handlePlotChannelSelect]
    rw [List.pairwise_map]
    refine hinv.groupsDisjoint.imp ?_
    intro g h hgh ch hch hmem
    exact (hgh ch (List.mem_of_mem_filter hch)) (List.mem_of_mem_filter hmem)

theorem routingInv_handleDragEnd (st : RoutingState) (s d c : String)
    (hinv : RoutingInv st)
    (hv : validRoutingOp st (.dragEnd s d c) = true) :
    RoutingInv (handleDragEnd st s d c) := by
  simp only [validRoutingOp, Bool.and_eq_true, Bool.or_eq_true, decide_eq_true_eq] at hv
  obtain ⟨hvd, hvb⟩ := hv
  by_cases hsd : s = d
  · unfold handleDragEnd
    rw [if_pos hsd]
    exact hinv
  · by_cases hsp : s = availablePoolId
    · have hcpool : c ∈ st.availableChannels := by
        unfold inBucket at hvb
        rw [if_pos hsp] at hvb
        simpa using hvb
      have hcng : ∀ g ∈ st.channelGroups, c ∉ g.channels :=
        fun g hg hcg => (hinv.poolDisjoint g hg c hcg) hcpool
      unfold handleDragEnd
      rw [if_neg hsd, if_pos hsp]
      refine ⟨?_, ?_, ?_⟩
      · simpa [addChannelToTargetGroup_ids] using hinv.nodupIds
      · intro g' hg' ch hch hpool
        have hpool' : ch ∈ st.availableChannels := List.mem_of_mem_filter hpool
        have hne : ch ≠ c := by
          have := List.of_mem_filter hpool
          simpa using this
        rcases mem_addChannelToTargetGroup st.channelGroups c d ch g' hg' hch with
          ⟨g3, hg3, hx3⟩ | hceq
        · exact (hinv.poolDisjoint g3 hg3 ch hx3) hpool'
        · exact hne hceq
      · exact addChannelToTargetGroup_pairwise _ c d hinv.groupsDisjoint hcng
    · by_cases hdp : d = availablePoolId
      · obtain ⟨g0, hf0, hc0⟩ := inBucket_group st s c hsp hvb
        unfold handleDragEnd
        rw [if_neg hsd, if_neg hsp, if_pos hdp]
        refine ⟨?_, ?_, ?_⟩
        · simpa [deleteChannelFromSourceGroup_ids] using hinv.nodupIds
        · intro g' hg' ch hch hpool
          rw [mem_sortChannels] at hpool
          rcases List.mem_append.mp hpool with hp1 | hp2
          · obtain ⟨g3, hg3, hx3⟩ :=
              mem_deleteChannelFromSourceGroup st.channelGroups c s ch g' hg' hch
            exact (hinv.poolDisjoint g3 hg3 ch hx3) hp1
          · have hcc : ch = c := by simpa using hp2
            rw [hcc] at hch
            exact not_mem_deleteChannelFromSourceGroup st.channelGroups c s
              hinv.groupsDisjoint g0 hf0 hc0 g' hg' hch
        · exact deleteChannelFromSourceGroup_pairwise _ c s hinv.groupsDisjoint
      · obtain ⟨g0, hf0, hc0⟩ := inBucket_group st s c hsp hvb
        have hcpool : c ∉ st.availableChannels :=
          hinv.poolDisjoint g0 (List.mem_of_find?_eq_some hf0) c hc0
        unfold handleDragEnd
        rw [if_neg hsd, if_neg hsp, if_neg hdp]
        refine ⟨?_, ?_, ?_⟩
        · simpa [deleteChannelFromSourceGroup_ids, addChannelToTargetGroup_ids] using
            hinv.nodupIds
        · intro g' hg' ch hch hpool
          obtain ⟨g2, hg2, hx2⟩ :=
            mem_deleteChannelFromSourceGroup _ c s ch g' hg' hch
          rcases mem_addChannelToTargetGroup st.channelGroups c d ch g2 hg2 hx2 with
            ⟨g3, hg3, hx3⟩ | hceq
          · exact (hinv.poolDisjoint g3 hg3 ch hx3) hpool
          · rw [hceq] at hpool
            exact hcpool hpool
        · rw [addChannelToTargetGroup_delete_comm st.channelGroups c s d hsd]
          apply addChannelToTargetGroup_pairwise
          · exact deleteChannelFromSourceGroup_pairwise _ c s hinv.groupsDisjoint
          · exact not_mem_deleteChannelFromSourceGroup st.channelGroups c s
              hinv.groupsDisjoint g0 hf0 hc0

theorem routingInv_createNewGroup (st : RoutingState) (u nm : String)
    (hinv : RoutingInv st)
    (hu : u ∉ st.channelGroups.map (fun g => g.id)) :
    RoutingInv (createNewGroup st u nm) := by
  refine ⟨?_, ?_, ?_⟩
  · simp only [createNewGroup, List.map_append]
    refine List.Nodup.append hinv.nodupIds (List.nodup_singleton u) ?_
    intro a ha hb
    have : a = u := by simpa using hb
    exact hu (this ▸ ha)
  · intro g' hg' ch hch
    simp only [createNewGroup] at hg'
    rcases List.mem_append.mp hg' with h1 | h2
    · exact hinv.poolDisjoint g' h1 ch hch
    · have hge : g' = ⟨u, nm, []⟩ := by simpa using h2
      rw [hge] at hch
      simp at hch
  · simp only [createNewGroup]
    rw [List.pairwise_append]
    refine ⟨hinv.groupsDisjoint, List.pairwise_singleton _ _, ?_⟩
    intro g hg g2 hg2 ch hch
    have hge : g2 = ⟨u, nm, []⟩ := by simpa using hg2
    rw [hge]
    simp

theorem routingInv_deleteGroup (st : RoutingState) (gid : String)
    (hinv : RoutingInv st) : RoutingInv (deleteGroup st gid) := by
  unfold deleteGroup
  split
  · rename_i g0 hf
    have hg0id : g0.id = gid := by
      have := List.find?_some hf
      simpa using this
    have hg0mem : g0 ∈ st.channelGroups := List.mem_of_find?_eq_some hf
    refine ⟨?_, ?_, ?_⟩
    · exact List.Nodup.sublist (List.Sublist.map _ (List.filter_sublist _)) hinv.nodupIds
    · intro g' hg' ch hch hpool
      have hg'mem : g' ∈ st.channelGroups := List.mem_of_mem_filter hg'
      have hg'id : g'.id ≠ gid := by
        have := List.of_mem_filter hg'
        simpa using this
      rw [mem_sortChannels] at hpool
      rcases List.mem_append.mp hpool with h1 | h2
      · exact (hinv.poolDisjoint g' hg'mem ch hch) h1
      · have hne : g' ≠ g0 := fun he => hg'id (he ▸ hg0id)
        exact (hinv.groupsDisjoint.forall disjointChannels_symm hg'mem hg0mem hne ch
          hch) h2
    · exact List.Pairwise.sublist (List.filter_sublist _) hinv.groupsDisjoint
  · refine ⟨?_, ?_, ?_⟩
    · exact List.Nodup.sublist (List.Sublist.map _ (List.filter_sublist _)) hinv.nodupIds
    · intro g' hg' ch hch
      exact hinv.poolDisjoint g' (List.mem_of_mem_filter hg') ch hch
    · exact List.Pairwise.sublist (List.filter_sublist _) hinv.groupsDisjoint

theorem routingInv_removeChannelFromGroup (st : RoutingState) (gid c : String)
    (hinv : RoutingInv st)
    (hv : validRoutingOp st (.removeFromGroup gid c) = true) :
    RoutingInv (removeChannelFromGroup st gid c) := by
  unfold removeChannelFromGroup
  split
  · rename_i g0 hf
    have hc0 : c ∈ g0.channels := by
      simp only [validRoutingOp] at hv
      rw [hf] at hv
      simpa using hv
    refine ⟨?_, ?_, ?_⟩
    · simpa [deleteChannelFromSourceGroup_ids] using hinv.nodupIds
    · intro g' hg' ch hch hpool
      rw [mem_sortChannels] at hpool
      rcases List.mem_append.mp hpool with h1 | h2
      · obtain ⟨g3, hg3, hx3⟩ :=
          mem_deleteChannelFromSourceGroup _ c gid ch g' hg' hch
        exact (hinv.poolDisjoint g3 hg3 ch hx3) h1
      · have hcc : ch = c := by simpa using h2
        rw [hcc] at hch
        exact not_mem_deleteChannelFromSourceGroup _ c gid hinv.groupsDisjoint g0 hf
          hc0 g' hg' hch
    · exact deleteChannelFromSourceGroup_pairwise _ c gid hinv.groupsDisjoint
  · exact hinv

theorem routingInv_applyRoutingOp (st : RoutingState) (op : RoutingOp)
    (hinv : RoutingInv st) (hv : validRoutingOp st op = true) :
    RoutingInv (applyRoutingOp st op) := by
  cases op with
  | select sel => exact routingInv_handlePlotChannelSelect st sel hinv
  | dragEnd s d c => exact routingInv_handleDragEnd st s d c hinv hv
  | createGroup u nm =>
    refine routingInv_createNewGroup st u nm hinv ?_
    simp only [validRoutingOp, Bool.and_eq_true, decide_eq_true_eq] at hv
    exact hv.1
  | deleteGrp gid => exact routingInv_deleteGroup st gid hinv
  | removeFromGroup gid c => exact routingInv_removeChannelFromGroup st gid c hinv hv

theorem routingInv_applyRoutingOps :
    ∀ (ops : List RoutingOp) (st : RoutingState), RoutingInv st →
      validRoutingOps st ops = true → RoutingInv (applyRoutingOps st ops)
  | [], _, hinv, _ => hinv
  | op :: ops, st, hinv, hv => by
    simp only [validRoutingOps, Bool.and_eq_true] at hv
    exact routingInv_applyRoutingOps ops (applyRoutingOp st op)
      (routingInv_applyRoutingOp st op hinv hv.1) hv.2

theorem routingInv_initial : RoutingInv initialRoutingState :=
  ⟨List.nodup_nil, by simp [initialRoutingState], List.Pairwise.nil⟩

theorem countP_le_one_of_pairwise {α : Type} (l : List α) (R : α → α → Prop)
    (p : α → Bool) (hpw : l.Pairwise R)
    (h : ∀ a b, p a = true → p b = true → ¬ R a b) :
    l.countP p ≤ 1 := by
  induction l with
  | nil => simp
  | cons a l ih =>
    rw [List.pairwise_cons] at hpw
    obtain ⟨ha, hl⟩ := hpw
    by_cases hp : p a = true
    · rw [List.countP_cons_of_pos _ _ hp]
      have hzero : l.countP p = 0 := by
        rw [List.countP_eq_zero]
        intro b hb hpb
        exact h a b hp hpb (ha b hb)
      omega
    · rw [List.countP_cons_of_neg _ _ (by simpa using hp)]
      exact ih hl

theorem occurrences_le_one (st : RoutingState) (hinv : RoutingInv st) (ch : String) :
    occurrences st ch ≤ 1 := by
  unfold occurrences
  have hcount : st.channelGroups.countP (fun g => decide (ch ∈ g.channels)) ≤ 1 :=
    countP_le_one_of_pairwise _ disjointChannels _ hinv.groupsDisjoint
      (fun a b hpa hpb hR => (hR ch (by simpa using hpa)) (by simpa using hpb))
  by_cases hp : ch ∈ st.availableChannels
  · rw [if_pos hp]
    have hzero : st.channelGroups.countP (fun g => decide (ch ∈ g.channels)) = 0 := by
      rw [List.countP_eq_zero]
      intro g hg hmem
      exact (hinv.poolDisjoint g hg ch (by simpa using hmem)) hp
    omega
  · rw [if_neg hp]
    omega

/-- C3. Starting from the default routing state, after any UI-reachable
sequence of `select` (handlePlotChannelSelect), drag (handleDragEnd),
`createNewGroup`, `deleteGroup` and `removeChannelFromGroup` operations,
every channel appearing in some bucket appears in exactly one bucket (the
pool or exactly one named group); and `deleteGroup` puts every member of the
deleted group back into the pool. -/
theorem routing_partition_one_bucket :
    (∀ ops : List RoutingOp, validRoutingOps initialRoutingState ops = true →
      ∀ ch : String,
        1 ≤ occurrences (applyRoutingOps initialRoutingState ops) ch →
        occurrences (applyRoutingOps initialRoutingState ops) ch = 1) ∧
    (∀ (st : RoutingState) (groupId : String) (g0 : ChannelGroup) (ch : String),
      st.channelGroups.find? (fun g => decide (g.id = groupId)) = some g0 →
      ch ∈ g0.channels → ch ∈ (deleteGroup st groupId).availableChannels) := by
  constructor
  · intro ops hv ch h1
    have hinv := routingInv_applyRoutingOps ops initialRoutingState routingInv_initial hv
    have := occurrences_le_one _ hinv ch
    omega
  · intro st groupId g0 ch hf hch
    unfold deleteGroup
    split
    · rename_i g1 hf1
      rw [hf] at hf1
      have hgg : g0 = g1 := Option.some.inj hf1
      rw [mem_sortChannels]
      exact List.mem_append.mpr (.inr (hgg ▸ hch))
    · rename_i hf1
      rw [hf] at hf1
      cases hf1

def routingOpsEx : List RoutingOp :=
  [.createGroup "g1" "Group 1", .select ["5 - A", "7 - B"],
   .dragEnd "available-channels" "g1" "5 - A"]

/-- Witness for C3: create a group, select two channels, drag one into the
group; that channel then sits in exactly one bucket, and deleting a group
returns its member to the pool. -/
theorem routing_partition_one_bucket_witness :
    occurrences (applyRoutingOps initialRoutingState routingOpsEx) "5 - A" = 1 ∧
    "7 - B" ∈ (deleteGroup
      { availableChannels := [],
        channelGroups := [⟨"g1", "Group 1", ["7 - B"]⟩] } "g1").availableChannels :=
  ⟨routing_partition_one_bucket.1 routingOpsEx (by decide) "5 - A" (by decide),
   routing_partition_one_bucket.2 _ "g1" ⟨"g1", "Group 1", ["7 - B"]⟩ "7 - B"
     (by decide) (by decide)⟩

/-- The option record of the channel multiselect (`Option` of
ConfiguredChannelSchema.ts, the fields the selection flow reads). `numId`
models `value.split(" - ")[0]` parsed back to the numeric channel id;
`channelName` is `none` for the synthetic select-all entries, which the flow
skips. -/
structure SelOption where
  numId : Nat
  value : String
  label : String
  channelName : Option String
deriving DecidableEq

/-- The channel-keyed stores touched by the selection flow:
`channelIdToPlotInfoRef`, `activePlotChannelsRef`, `activeDiscreteChannelsRef`. -/
structure ChannelStores where
  channelIdToPlotInfo : JMap Nat SelOption
  activePlotChannels : JMap Nat SeriesData
  activeDiscreteChannels : JMap Nat DiscreteChannelState
deriving DecidableEq

/-- `updateChannelsToPlot` of CascadingMultiSelect: records the option's plot
info at its numeric id, skipping options without a `channelName`. -/
def updateChannelsToPlot (info : JMap Nat SelOption) (opt : SelOption) :
    JMap Nat SelOption :=
  match opt.channelName with
  | none => info
  | some _ => info.set opt.numId opt

/-- `selectedOptions.forEach(updateChannelsToPlot)` in `handleStreamButtonClick`. -/
def registerSelectedChannels (info : JMap Nat SelOption) (sel : List SelOption) :
    JMap Nat SelOption :=
  sel.foldl updateChannelsToPlot info

/-- `cleanUpSelectedChannels` of CascadingMultiSelect: while the connection
is not Off, every current buffer key matched by no selected option is
deleted from both the buffer map and the plot-info map (the Off branch only
clears the component's own selection state). -/
def staleChannels (sel : List SelOption) (bufs : JMap Nat SeriesData) : List Nat :=
  bufs.keys.filter (fun channelId => !(sel.any (fun o => o.numId == channelId)))

def cleanUpSelectedChannels (connectionOff : Bool) (sel : List SelOption)
    (st : ChannelStores) : ChannelStores :=
  if connectionOff then st
  else
    { st with
      activePlotChannels :=
        (staleChannels sel st.activePlotChannels).foldl
          JMap.erase st.activePlotChannels,
      channelIdToPlotInfo :=
        (staleChannels sel st.activePlotChannels).foldl
          JMap.erase st.channelIdToPlotInfo }

/-- Series entry created by `handlePlotChannelSelect` for a newly selected
channel (type "line", visible, empty dataPoints). -/
def newSeriesData (legend : Bool) (opt : SelOption) : SeriesData :=
  { name := opt.value, showInLegend := legend, visible := true, dataPoints := [] }

/-- One step of the buffer-creating loop of `handlePlotChannelSelect`:
create the channel's series buffer if missing. -/
def ensureBufferStep (legend : Bool) (bufs : JMap Nat SeriesData)
    (kv : Nat × SelOption) : JMap Nat SeriesData :=
  match bufs.find kv.1 with
  | some _ => bufs
  | none => bufs.set kv.1 (newSeriesData legend kv.2)

/-- The buffer-creating part of `handlePlotChannelSelect`: for every recorded
plot-info entry, create the channel's series buffer if missing. -/
def createMissingBuffers (legend : Bool) (st : ChannelStores) : ChannelStores :=
  { st with
    activePlotChannels :=
      st.channelIdToPlotInfo.foldl (ensureBufferStep legend) st.activePlotChannels }

/-- The full `select` flow behind the Stream button
(`handleStreamButtonClick`): record plot info for each selected option, clean
up deselected buffers and metadata, then create the missing buffers for
every recorded id. -/
def handleStreamButtonSelect (connectionOff legend : Bool) (sel : List SelOption)
    (st : ChannelStores) : ChannelStores :=
  createMissingBuffers legend
    (cleanUpSelectedChannels connectionOff sel
      { st with
        channelIdToPlotInfo := registerSelectedChannels st.channelIdToPlotInfo sel })

/-- `getDynamicChannelList` of LiveMonitorContext: the wanted ids sent to the
server — the discrete keys followed by the plot-buffer keys. -/
def getDynamicChannelList (discrete : JMap Nat DiscreteChannelState)
    (plots : JMap Nat SeriesData) : List Nat :=
  discrete.keys ++ plots.keys

theorem JMap.find_set {κ α : Type} [DecidableEq κ] (m : JMap κ α) (k0 k : κ) (v : α) :
    (m.set k0 v).find k = if k = k0 then some v else m.find k := by
  induction m with
  | nil =>
    by_cases h : k = k0 <;> simp_all [JMap.set, JMap.find, Ne.symm]
  | cons kv rest ih =>
    obtain ⟨k', v'⟩ := kv
    by_cases h : k' = k0 <;> by_cases hk : k' = k <;>
      simp_all [JMap.set, JMap.find, Ne.symm]

theorem JMap.find_erase {κ α : Type} [DecidableEq κ] (m : JMap κ α) (k0 k : κ) :
    (m.erase k0).find k = if k = k0 then none else m.find k := by
  induction m with
  | nil =>
    by_cases h : k = k0 <;> simp_all [JMap.erase, JMap.find]
  | cons kv rest ih =>
    obtain ⟨k', v'⟩ := kv
    by_cases h : k' = k0 <;> by_cases hk : k' = k <;>
      simp_all [JMap.erase, JMap.find, List.filter_cons, Ne.symm]

theorem JMap.find_isSome_iff_mem_keys {κ α : Type} [DecidableEq κ]
    (m : JMap κ α) (k : κ) :
    (m.find k).isSome = true ↔ k ∈ m.keys := by
  induction m with
  | nil => simp [JMap.find, JMap.keys]
  | cons kv rest ih =>
    obtain ⟨k', v'⟩ := kv
    by_cases h : k' = k <;> simp_all [JMap.find, JMap.keys, Ne.symm]

theorem find_foldl_erase {κ α : Type} [DecidableEq κ] (ks : List κ)
    (m : JMap κ α) (k : κ) :
    JMap.find (ks.foldl JMap.erase m) k = if k ∈ ks then none else m.find k := by
  induction ks generalizing m with
  | nil => simp
  | cons k0 ks ih =>
    simp only [List.foldl_cons]
    rw [ih, JMap.find_erase]
    by_cases hks : k ∈ ks
    · rw [if_pos hks, if_pos (List.mem_cons_of_mem _ hks)]
    · rw [if_neg hks]
      by_cases hk0 : k = k0
      · rw [if_pos hk0, if_pos (by simp [hk0])]
      · rw [if_neg hk0, if_neg (by simp [hk0, hks])]

theorem registerSelectedChannels_cons (info : JMap Nat SelOption) (o : SelOption)
    (sel : List SelOption) :
    registerSelectedChannels info (o :: sel) =
      registerSelectedChannels (updateChannelsToPlot info o) sel := rfl

theorem find_isSome_registerSelectedChannels (sel : List SelOption) (k : Nat) :
    ∀ (info : JMap Nat SelOption),
      ((registerSelectedChannels info sel).find k).isSome = true →
      (info.find k).isSome = true ∨ sel.any (fun o => o.numId == k) = true := by
  induction sel with
  | nil => exact fun info h => .inl h
  | cons o sel ih =>
    intro info h
    rw [registerSelectedChannels_cons] at h
    rcases ih (updateChannelsToPlot info o) h with h1 | h2
    · unfold updateChannelsToPlot at h1
      cases hcn : o.channelName with
      | none => rw [hcn] at h1; exact .inl h1
      | some nm =>
        rw [hcn, JMap.find_set] at h1
        by_cases hk : k = o.numId
        · right
          simp [List.any_cons, hk]
        · rw [if_neg hk] at h1
          exact .inl h1
    · right
      simp [List.any_cons, h2]

theorem find_registerSelectedChannels_not_selected (sel : List SelOption) (k : Nat)
    (h : sel.any (fun o => o.numId == k) = false) :
    ∀ info : JMap Nat SelOption,
      (registerSelectedChannels info sel).find k = info.find k := by
  induction sel with
  | nil => exact fun _ => rfl
  | cons o sel ih =>
    intro info
    simp only [List.any_cons, Bool.or_eq_false_iff] at h
    obtain ⟨h1, h2⟩ := h
    rw [registerSelectedChannels_cons, ih h2]
    unfold updateChannelsToPlot
    cases hcn : o.channelName with
    | none => rfl
    | some nm =>
      rw [JMap.find_set, if_neg (fun hh => by simp [hh] at h1)]

theorem find_isSome_foldl_ensure (legend : Bool) (l : List (Nat × SelOption)) (k : Nat) :
    ∀ bufs : JMap Nat SeriesData,
      ((l.foldl (ensureBufferStep legend) bufs).find k).isSome = true ↔
        (bufs.find k).isSome = true ∨ k ∈ l.map Prod.fst := by
  induction l with
  | nil => simp
  | cons kv l ih =>
    intro bufs
    simp only [List.foldl_cons, List.map_cons, List.mem_cons]
    rw [ih]
    unfold ensureBufferStep
    cases hf : bufs.find kv.1 with
    | some v =>
      constructor
      · rintro (h1 | h2)
        · exact .inl h1
        · exact .inr (.inr h2)
      · rintro (h1 | h2 | h3)
        · exact .inl h1
        · left
          rw [h2, hf]
          rfl
        · exact .inr h3
    | none =>
      rw [JMap.find_set]
      by_cases hk : k = kv.1
      · simp [hk]
      · rw [if_neg hk]
        constructor
        · rintro (h1 | h2)
          · exact .inl h1
          · exact .inr (.inr h2)
        · rintro (h1 | h2 | h3)
          · exact .inl h1
          · exact absurd h2 hk
          · exact .inr h3

theorem find_foldl_ensure_not_mem (legend : Bool) (l : List (Nat × SelOption))
    (k : Nat) (h : k ∉ l.map Prod.fst) :
    ∀ bufs : JMap Nat SeriesData,
      (l.foldl (ensureBufferStep legend) bufs).find k = bufs.find k := by
  induction l with
  | nil => exact fun _ => rfl
  | cons kv l ih =>
    intro bufs
    simp only [List.map_cons, List.mem_cons] at h
    push_neg at h
    simp only [List.foldl_cons]
    rw [ih h.2]
    unfold ensureBufferStep
    cases hf : bufs.find kv.1 with
    | some v => rfl
    | none => rw [JMap.find_set, if_neg h.1]

theorem mem_staleChannels (sel : List SelOption) (bufs : JMap Nat SeriesData)
    (k : Nat) :
    k ∈ staleChannels sel bufs ↔
      k ∈ bufs.keys ∧ sel.any (fun o => o.numId == k) = false := by
  unfold staleChannels
  rw [List.mem_filter]
  simp

/-- C4. The select flow (Stream button: `updateChannelsToPlot` over the
selected options, `cleanUpSelectedChannels`, then `handlePlotChannelSelect`'s
buffer creation), run while the connection is not Off, on a state whose
plot-info keys all have buffers: (1)/(2) every remaining series buffer and
plot-info entry belongs to a selected id; (3) every id no longer selected
has its series buffer and its metadata removed; (4) the discrete map is
untouched; (5) every id with a series buffer or a discrete entry is in the
wanted set `getDynamicChannelList`; (6) the plot-info ⊆ buffers invariant is
re-established. -/
theorem handleStreamButtonSelect_wanted (legend : Bool) (sel : List SelOption)
    (st : ChannelStores)
    (hsub : ∀ k : Nat, (st.channelIdToPlotInfo.find k).isSome = true →
      (st.activePlotChannels.find k).isSome = true) :
    (∀ k : Nat,
      ((handleStreamButtonSelect false legend sel st).activePlotChannels.find k).isSome
        = true →
      sel.any (fun o => o.numId == k) = true) ∧
    (∀ k : Nat,
      ((handleStreamButtonSelect false legend sel st).channelIdToPlotInfo.find k).isSome
        = true →
      sel.any (fun o => o.numId == k) = true) ∧
    (∀ k : Nat, (st.activePlotChannels.find k).isSome = true →
      sel.any (fun o => o.numId == k) = false →
      (handleStreamButtonSelect false legend sel st).activePlotChannels.find k = none ∧
      (handleStreamButtonSelect false legend sel st).channelIdToPlotInfo.find k = none) ∧
    ((handleStreamButtonSelect false legend sel st).activeDiscreteChannels =
      st.activeDiscreteChannels) ∧
    (∀ k : Nat,
      (((handleStreamButtonSelect false legend sel st).activePlotChannels.find k).isSome
          = true ∨
        ((handleStreamButtonSelect false legend sel st).activeDiscreteChannels.find
          k).isSome = true) →
      k ∈ getDynamicChannelList
        (handleStreamButtonSelect false legend sel st).activeDiscreteChannels
        (handleStreamButtonSelect false legend sel st).activePlotChannels) ∧
    (∀ k : Nat,
      ((handleStreamButtonSelect false legend sel st).channelIdToPlotInfo.find k).isSome
        = true →
      ((handleStreamButtonSelect false legend sel st).activePlotChannels.find k).isSome
        = true) := by
  have hI : (handleStreamButtonSelect false legend sel st).channelIdToPlotInfo =
      (staleChannels sel st.activePlotChannels).foldl JMap.erase
        (registerSelectedChannels st.channelIdToPlotInfo sel) := rfl
  have hB : (handleStreamButtonSelect false legend sel st).activePlotChannels =
      ((staleChannels sel st.activePlotChannels).foldl JMap.erase
        (registerSelectedChannels st.channelIdToPlotInfo sel)).foldl
        (ensureBufferStep legend)
        ((staleChannels sel st.activePlotChannels).foldl JMap.erase
          st.activePlotChannels) := rfl
  have hD : (handleStreamButtonSelect false legend sel st).activeDiscreteChannels =
      st.activeDiscreteChannels := rfl
  have hclean_bufs : ∀ k, ((staleChannels sel st.activePlotChannels).foldl JMap.erase
      st.activePlotChannels).find k =
      if k ∈ staleChannels sel st.activePlotChannels then none
      else st.activePlotChannels.find k := fun k => find_foldl_erase _ _ k
  have hclean_info : ∀ k, ((staleChannels sel st.activePlotChannels).foldl JMap.erase
      (registerSelectedChannels st.channelIdToPlotInfo sel)).find k =
      if k ∈ staleChannels sel st.activePlotChannels then none
      else (registerSelectedChannels st.channelIdToPlotInfo sel).find k :=
    fun k => find_foldl_erase _ _ k
  have hnotstale : ∀ k, k ∈ st.activePlotChannels.keys →
      k ∉ staleChannels sel st.activePlotChannels →
      sel.any (fun o => o.numId == k) = true := by
    intro k hk hns
    cases hcase : sel.any (fun o => o.numId == k)
    · exact absurd ((mem_staleChannels sel _ k).mpr ⟨hk, hcase⟩) hns
    · rfl
  have hinfo_sel : ∀ k, (((staleChannels sel st.activePlotChannels).foldl JMap.erase
      (registerSelectedChannels st.channelIdToPlotInfo sel)).find k).isSome = true →
      sel.any (fun o => o.numId == k) = true := by
    intro k h
    rw [hclean_info k] at h
    by_cases hst : k ∈ staleChannels sel st.activePlotChannels
    · rw [if_pos hst] at h
      simp at h
    · rw [if_neg hst] at h
      rcases find_isSome_registerSelectedChannels sel k st.channelIdToPlotInfo h with
        h1 | h2
      · exact hnotstale k ((JMap.find_isSome_iff_mem_keys _ _).mp (hsub k h1)) hst
      · exact h2
  refine ⟨?_, ?_, ?_, hD, ?_, ?_⟩
  · intro k h
    rw [hB, find_isSome_foldl_ensure] at h
    rcases h with h1 | h2
    · rw [hclean_bufs k] at h1
      by_cases hst : k ∈ staleChannels sel st.activePlotChannels
      · rw [if_pos hst] at h1
        simp at h1
      · rw [if_neg hst] at h1
        exact hnotstale k ((JMap.find_isSome_iff_mem_keys _ _).mp h1) hst
    · exact hinfo_sel k ((JMap.find_isSome_iff_mem_keys _ _).mpr h2)
  · intro k h
    rw [hI] at h
    exact hinfo_sel k h
  · intro k hbuf hany
    have hkkeys := (JMap.find_isSome_iff_mem_keys _ _).mp hbuf
    have hst : k ∈ staleChannels sel st.activePlotChannels :=
      (mem_staleChannels _ _ _).mpr ⟨hkkeys, hany⟩
    have hinone : ((staleChannels sel st.activePlotChannels).foldl JMap.erase
        (registerSelectedChannels st.channelIdToPlotInfo sel)).find k = none := by
      rw [hclean_info k, if_pos hst]
    constructor
    · rw [hB]
      have hnk : k ∉ ((staleChannels sel st.activePlotChannels).foldl JMap.erase
          (registerSelectedChannels st.channelIdToPlotInfo sel)).map Prod.fst := by
        intro hmem
        have hsome := (JMap.find_isSome_iff_mem_keys _ _).mpr hmem
        rw [hinone] at hsome
        simp at hsome
      rw [find_foldl_ensure_not_mem legend _ k hnk, hclean_bufs k, if_pos hst]
    · rw [hI, hinone]
  · intro k h
    unfold getDynamicChannelList
    rcases h with h1 | h2
    · exact List.mem_append.mpr (.inr ((JMap.find_isSome_iff_mem_keys _ _).mp h1))
    · exact List.mem_append.mpr (.inl ((JMap.find_isSome_iff_mem_keys _ _).mp h2))
  · intro k h
    rw [hI] at h
    rw [hB, find_isSome_foldl_ensure]
    exact .inr ((JMap.find_isSome_iff_mem_keys _ _).mp h)

def optionB : SelOption := ⟨102, "102 - B", "102 - B", some "B"⟩

def stC4 : ChannelStores where
  channelIdToPlotInfo := [(101, ⟨101, "101 - A", "101 - A", some "A"⟩)]
  activePlotChannels := [(101, ⟨"101 - A", true, true, []⟩)]
  activeDiscreteChannels := [(9, .HIGH)]

/-- Witness for C4: selecting only channel 102 removes channel 101's series
buffer and metadata. -/
theorem handleStreamButtonSelect_wanted_witness :
    (handleStreamButtonSelect false true [optionB] stC4).activePlotChannels.find 101
      = none ∧
    (handleStreamButtonSelect false true [optionB] stC4).channelIdToPlotInfo.find 101
      = none :=
  (handleStreamButtonSelect_wanted true [optionB] stC4 (by
    intro k h
    by_cases hk : (101 : Nat) = k
    · cases hk
      decide
    · simp [stC4, JMap.find, hk] at h)).2.2.1 101 (by decide) (by decide)

/-- `ConnectionType` of LiveMonitorContext. -/
inductive ConnectionType where
  | Off
  | Local
  | Remote
deriving DecidableEq

/-- The argument of `switchDataStreamWSConnection`: one of the string tags
"Terminate" / "SwitchConnection" / "Reconnect", or a MouseEvent / undefined
(`Other`, used for plain connects and disconnects). -/
inductive SwitchEventTag where
  | Terminate
  | SwitchConnection
  | Reconnect
  | Other
deriving DecidableEq

/-- `const maxReconnectAttempts = 3`. -/
def maxReconnectAttempts : Nat := 3

/-- `UrlConstant.DAQ_STREAM_SERVER_URL` (a deployment constant; only the
choice between the two URLs matters to the claims). -/
def localUrl : String := "DAQ_STREAM_SERVER_URL"

/-- `UrlConstant.REMOTE_DATA_STREAM_SERVER_URL`. -/
def remoteUrl : String := "REMOTE_DATA_STREAM_SERVER_URL"

/-- The state owned by LiveMonitoringProvider. Sockets are identified by a
creation counter; `closedSockets` and `openedSockets` record the `close`
calls (socket id, close code) and the `new WebSocket(url)` constructions
(socket id, url) as an event trace. `reconnectTimeout` models
`reconnectTimeoutRef` (an armed reconnect timer id, if any). -/
structure LifecycleState where
  activePlotChannels : JMap Nat SeriesData
  seriesData : JMap Nat SeriesData
  channelIdToPlotInfo : JMap Nat SelOption
  activeDiscreteChannels : JMap Nat DiscreteChannelState
  availableChannels : List String
  channelGroups : List ChannelGroup
  connectionState : ConnectionType
  dataStreamWS : Option Nat
  selectedSystemIndex : ConnectionType
  reconnectAttempts : Nat
  reconnectTimeout : Option Nat
  isStreaming : Bool
  isRecording : Bool
  tabUniqueId : String
  nextSocketId : Nat
  closedSockets : List (Nat × Nat)
  openedSockets : List (Nat × String)
deriving DecidableEq

/-- `resetPlotState` of LiveMonitorContext: clears the plot buffers, the
series cache, the plot metadata, the available-channel pool and the channel
groups (and resets the chart options, which carry no engine state and are
not modelled). It does NOT touch `activeDiscreteChannelsRef`. -/
def resetPlotState (st : LifecycleState) : LifecycleState :=
  { st with
    activePlotChannels := []
    seriesData := []
    channelIdToPlotInfo := []
    availableChannels := []
    channelGroups := [] }

/-- `new WebSocket(wsUrl)` plus `dataStreamWSRef.current = newSocket`:
the url is the remote one iff `selectedSystemIndex` is Remote. -/
def openNewSocket (st : LifecycleState) : LifecycleState :=
  { st with
    dataStreamWS := some st.nextSocketId
    openedSockets := st.openedSockets ++
      [(st.nextSocketId,
        if st.selectedSystemIndex = ConnectionType.Remote then remoteUrl else localUrl)]
    nextSocketId := st.nextSocketId + 1 }

/-- `dataStreamWSRef.current?.close(code)`: records the close call; the
socket's close event is delivered asynchronously (see `handleSocketClose`). -/
def closeCurrentSocket (st : LifecycleState) (code : Nat) : LifecycleState :=
  match st.dataStreamWS with
  | some sid => { st with closedSockets := st.closedSockets ++ [(sid, code)] }
  | none => st

/-- `switchDataStreamWSConnection` of LiveMonitorContext (the synchronous
part of the handler; socket-construction failure is not modelled). -/
def switchDataStreamWSConnection (st : LifecycleState) (event : SwitchEventTag) :
    LifecycleState :=
  if st.dataStreamWS.isSome ∧ event ≠ SwitchEventTag.Reconnect then
    let st1 := { closeCurrentSocket st 1000 with seriesData := [] }
    if event ≠ SwitchEventTag.SwitchConnection then
      { resetPlotState st1 with dataStreamWS := none }
    else openNewSocket st1
  else if event = SwitchEventTag.Terminate then resetPlotState st
  else openNewSocket st

/-- The `newSocket.onclose` handler (identical closure for every socket the
provider creates; it runs whenever any of them closes): resets the plot
state, forces the connection Off, drops the socket reference, and — when the
close was not clean (code 1000) and the attempt budget remains — increments
the reconnect counter and computes a 500 ms delay, but never arms a timer
(`reconnectTimeoutRef` is not written and no reconnect call is scheduled). -/
def handleSocketClose (st : LifecycleState) (code : Nat) : LifecycleState :=
  let st1 := resetPlotState st
  let st2 := { st1 with
    connectionState := ConnectionType.Off
    isStreaming := false
    isRecording := false
    dataStreamWS := none
    selectedSystemIndex := ConnectionType.Off }
  if code ≠ 1000 ∧ st2.reconnectAttempts < maxReconnectAttempts then
    { st2 with reconnectAttempts := st2.reconnectAttempts + 1 }
  else st2

/-- The effects that react to `connectionState` becoming Off: the context
clears the channel groups and available channels; if (and only if) the
channel-selection panel (CascadingMultiSelect) is mounted, its own effect
additionally clears the discrete map, the plot buffers and the plot
metadata. -/
def connectionOffEffects (multiSelectMounted : Bool) (st : LifecycleState) :
    LifecycleState :=
  if st.connectionState = ConnectionType.Off then
    let st1 := { st with channelGroups := [], availableChannels := [] }
    if multiSelectMounted then
      { st1 with
        activeDiscreteChannels := []
        activePlotChannels := []
        channelIdToPlotInfo := [] }
    else st1
  else st

/-- `DynamicChannelRequest` of LiveMonitorContext / useDataStreamRequester. -/
structure DynamicChannelRequest where
  commandId : String
  tabIdLength : Nat
  finalChannelCount : Nat
  channelList : List Nat
  tabUniqueId : String
  userName : String
deriving DecidableEq

/-- `sendDynamicChannelRequest` of LiveMonitorContext: the request handed to
`formatAndSendReq`, if any — nothing is built when the connection is Off,
when no socket reference exists, or when the wanted channel list is empty. -/
def sendDynamicChannelRequest (st : LifecycleState) (userName : String) :
    Option DynamicChannelRequest :=
  if st.connectionState ≠ ConnectionType.Off ∧ st.dataStreamWS.isSome then
    if 0 < (getDynamicChannelList st.activeDiscreteChannels st.activePlotChannels).length
    then
      some
        { commandId := "0XAB"
          tabIdLength := 36
          finalChannelCount :=
            (getDynamicChannelList st.activeDiscreteChannels st.activePlotChannels).length
          channelList := getDynamicChannelList st.activeDiscreteChannels
            st.activePlotChannels
          tabUniqueId := st.tabUniqueId
          userName := userName }
    else none
  else none

/-- `formatAndSendReq` of useDataStreamRequester: the JSON message goes out
only while the socket's readyState is OPEN; otherwise a warning is logged
and nothing is sent. -/
def formatAndSendReq (socketOpen : Bool) (request : DynamicChannelRequest) :
    Option DynamicChannelRequest :=
  if socketOpen then some request else none

def stLC : LifecycleState where
  activePlotChannels := [(101, ⟨"101 - A", true, true, []⟩)]
  seriesData := []
  channelIdToPlotInfo := []
  activeDiscreteChannels := [(5, .HIGH)]
  availableChannels := ["101 - A"]
  channelGroups := []
  connectionState := .Local
  dataStreamWS := some 0
  selectedSystemIndex := .Local
  reconnectAttempts := 0
  reconnectTimeout := none
  isStreaming := true
  isRecording := false
  tabUniqueId := "tab-1"
  nextSocketId := 1
  closedSockets := []
  openedSockets := [(0, localUrl)]

/-- C5 counterexample. A Disconnect while discrete channel 5 is HIGH: even
after the synchronous handler, the old socket's close event and the
connection-Off effects (channel panel not mounted — its default), the
discrete HIGH/LOW map still holds channel 5; it is not cleared by the reset
these actions perform. -/
theorem disconnect_keeps_discrete_counterexample :
    (connectionOffEffects false
      (handleSocketClose
        (switchDataStreamWSConnection stLC SwitchEventTag.Other) 1000)).activeDiscreteChannels
      = [(5, DiscreteChannelState.HIGH)] ∧
    [(5, DiscreteChannelState.HIGH)] ≠ ([] : JMap Nat DiscreteChannelState) := by
  exact ⟨rfl, by decide⟩

/-- C5 (amended). A `Terminate` or `Disconnect` action with a live socket
empties the series buffers, the series cache, the plot metadata, and resets
the group/pool partition to its default, and drops the socket reference —
but the discrete HIGH/LOW map is left untouched, both by the synchronous
reset and after the socket's close event plus the connection-Off effects run
(with the channel-selection panel unmounted; only that panel's own effect
ever clears the discrete map). -/
theorem terminate_disconnect_reset (st : LifecycleState) (ev : SwitchEventTag)
    (hev : ev = SwitchEventTag.Terminate ∨ ev = SwitchEventTag.Other)
    (hsock : st.dataStreamWS.isSome = true) :
    (switchDataStreamWSConnection st ev).activePlotChannels = [] ∧
    (switchDataStreamWSConnection st ev).seriesData = [] ∧
    (switchDataStreamWSConnection st ev).channelIdToPlotInfo = [] ∧
    (switchDataStreamWSConnection st ev).availableChannels = [] ∧
    (switchDataStreamWSConnection st ev).channelGroups = [] ∧
    (switchDataStreamWSConnection st ev).dataStreamWS = none ∧
    (switchDataStreamWSConnection st ev).activeDiscreteChannels =
      st.activeDiscreteChannels ∧
    (connectionOffEffects false
      (handleSocketClose (switchDataStreamWSConnection st ev)
        1000)).activeDiscreteChannels = st.activeDiscreteChannels := by
  have hne : ev ≠ SwitchEventTag.Reconnect := by
    rcases hev with h | h <;> simp [h]
  have hns : ev ≠ SwitchEventTag.SwitchConnection := by
    rcases hev with h | h <;> simp [h]
  obtain ⟨sid, hsid⟩ : ∃ sid, st.dataStreamWS = some sid := by
    cases h : st.dataStreamWS
    · rw [h] at hsock
      simp at hsock
    · exact ⟨_, rfl⟩
  unfold switchDataStreamWSConnection
  rw [if_pos ⟨hsock, hne⟩, if_pos hns]
  simp [resetPlotState, closeCurrentSocket, hsid, handleSocketClose,
    connectionOffEffects, maxReconnectAttempts]

/-- Witness for C5's amended statement at the concrete state `stLC`. -/
theorem terminate_disconnect_reset_witness :
    (switchDataStreamWSConnection stLC SwitchEventTag.Other).activePlotChannels = [] ∧
    (switchDataStreamWSConnection stLC SwitchEventTag.Other).seriesData = [] ∧
    (switchDataStreamWSConnection stLC SwitchEventTag.Other).channelIdToPlotInfo = [] ∧
    (switchDataStreamWSConnection stLC SwitchEventTag.Other).availableChannels = [] ∧
    (switchDataStreamWSConnection stLC SwitchEventTag.Other).channelGroups = [] ∧
    (switchDataStreamWSConnection stLC SwitchEventTag.Other).dataStreamWS = none ∧
    (switchDataStreamWSConnection stLC SwitchEventTag.Other).activeDiscreteChannels =
      stLC.activeDiscreteChannels ∧
    (connectionOffEffects false
      (handleSocketClose (switchDataStreamWSConnection stLC SwitchEventTag.Other)
        1000)).activeDiscreteChannels = stLC.activeDiscreteChannels :=
  terminate_disconnect_reset stLC SwitchEventTag.Other (Or.inr rfl) (by decide)

def stLC6 : LifecycleState :=
  { stLC with channelGroups := [⟨"g1", "Group 1", ["7 - B"]⟩] }

/-- C6 counterexample. A SwitchConnection while group g1 holds a channel:
when the OLD socket's close event is processed (its handler runs
`resetPlotState` and forces the state Off), the user's group assignments are
wiped — they are not retained across the switch as claimed. -/
theorem switchConnection_close_event_counterexample :
    stLC6.channelGroups = [⟨"g1", "Group 1", ["7 - B"]⟩] ∧
    (handleSocketClose
      (switchDataStreamWSConnection stLC6 SwitchEventTag.SwitchConnection)
      1000).channelGroups = [] ∧
    (handleSocketClose
      (switchDataStreamWSConnection stLC6 SwitchEventTag.SwitchConnection)
      1000).dataStreamWS = none := by
  exact ⟨rfl, rfl, rfl⟩

/-- C6 (amended). `SwitchConnection` with a live socket closes it with the
clean code 1000, clears only the per-connection series cache (groups, pool,
plot buffers untouched at that point) and opens a new socket to the target's
URL — but once the old socket's asynchronous close event is processed, its
handler resets the plot state (wiping the group/pool assignments) and nulls
the socket reference (discarding the new socket). -/
theorem switchConnection_switch_semantics (st : LifecycleState) (sid : Nat)
    (hsock : st.dataStreamWS = some sid) :
    (switchDataStreamWSConnection st SwitchEventTag.SwitchConnection).channelGroups =
      st.channelGroups ∧
    (switchDataStreamWSConnection st SwitchEventTag.SwitchConnection).availableChannels
      = st.availableChannels ∧
    (switchDataStreamWSConnection st SwitchEventTag.SwitchConnection).activePlotChannels
      = st.activePlotChannels ∧
    (switchDataStreamWSConnection st SwitchEventTag.SwitchConnection).seriesData = [] ∧
    (switchDataStreamWSConnection st SwitchEventTag.SwitchConnection).closedSockets =
      st.closedSockets ++ [(sid, 1000)] ∧
    (switchDataStreamWSConnection st SwitchEventTag.SwitchConnection).openedSockets =
      st.openedSockets ++ [(st.nextSocketId,
        if st.selectedSystemIndex = ConnectionType.Remote then remoteUrl
        else localUrl)] ∧
    (switchDataStreamWSConnection st SwitchEventTag.SwitchConnection).dataStreamWS =
      some st.nextSocketId ∧
    (handleSocketClose
      (switchDataStreamWSConnection st SwitchEventTag.SwitchConnection)
      1000).channelGroups = [] ∧
    (handleSocketClose
      (switchDataStreamWSConnection st SwitchEventTag.SwitchConnection)
      1000).dataStreamWS = none := by
  unfold switchDataStreamWSConnection
  rw [if_pos ⟨by simp [hsock], by simp⟩, if_neg (by simp)]
  simp [openNewSocket, closeCurrentSocket, hsock, handleSocketClose, resetPlotState]

/-- Witness for C6's amended statement at the concrete state `stLC6`. -/
theorem switchConnection_switch_semantics_witness :
    (switchDataStreamWSConnection stLC6 SwitchEventTag.SwitchConnection).channelGroups
      = stLC6.channelGroups ∧
    (switchDataStreamWSConnection stLC6
      SwitchEventTag.SwitchConnection).availableChannels = stLC6.availableChannels ∧
    (switchDataStreamWSConnection stLC6
      SwitchEventTag.SwitchConnection).activePlotChannels = stLC6.activePlotChannels ∧
    (switchDataStreamWSConnection stLC6 SwitchEventTag.SwitchConnection).seriesData
      = [] ∧
    (switchDataStreamWSConnection stLC6 SwitchEventTag.SwitchConnection).closedSockets
      = stLC6.closedSockets ++ [(0, 1000)] ∧
    (switchDataStreamWSConnection stLC6 SwitchEventTag.SwitchConnection).openedSockets
      = stLC6.openedSockets ++ [(stLC6.nextSocketId,
        if stLC6.selectedSystemIndex = ConnectionType.Remote then remoteUrl
        else localUrl)] ∧
    (switchDataStreamWSConnection stLC6 SwitchEventTag.SwitchConnection).dataStreamWS
      = some stLC6.nextSocketId ∧
    (handleSocketClose
      (switchDataStreamWSConnection stLC6 SwitchEventTag.SwitchConnection)
      1000).channelGroups = [] ∧
    (handleSocketClose
      (switchDataStreamWSConnection stLC6 SwitchEventTag.SwitchConnection)
      1000).dataStreamWS = none :=
  switchConnection_switch_semantics stLC6 0 rfl

/-- C8. The `onclose` handler never arms a reconnect timer
(`reconnectTimeoutRef` is untouched) and opens no socket, whatever the close
code; on an abnormal close below the attempt budget it only increments the
counter (and logs a computed 500 ms delay); on a clean close or an exhausted
budget the counter is unchanged. -/
theorem handleSocketClose_reconnect_not_armed (st : LifecycleState) (code : Nat) :
    (handleSocketClose st code).reconnectTimeout = st.reconnectTimeout ∧
    (handleSocketClose st code).openedSockets = st.openedSockets ∧
    (code ≠ 1000 ∧ st.reconnectAttempts < maxReconnectAttempts →
      (handleSocketClose st code).reconnectAttempts = st.reconnectAttempts + 1) ∧
    ((code = 1000 ∨ maxReconnectAttempts ≤ st.reconnectAttempts) →
      (handleSocketClose st code).reconnectAttempts = st.reconnectAttempts) := by
  simp only [handleSocketClose]
  split
  · rename_i h
    refine ⟨rfl, rfl, fun _ => rfl, ?_⟩
    intro hcon
    rcases hcon with h1 | h1
    · exact (h.1 h1).elim
    · exact ((not_lt.mpr h1) h.2).elim
  · rename_i h
    refine ⟨rfl, rfl, ?_, fun _ => rfl⟩
    intro hc
    exact (h hc).elim

/-- Witness for C8: an abnormal close (code 1006) with the counter at 0
leaves the reconnect timer unarmed and only increments the counter. -/
theorem handleSocketClose_reconnect_not_armed_witness :
    (handleSocketClose stLC 1006).reconnectTimeout = stLC.reconnectTimeout ∧
    (handleSocketClose stLC 1006).reconnectAttempts = stLC.reconnectAttempts + 1 :=
  ⟨(handleSocketClose_reconnect_not_armed stLC 1006).1,
   (handleSocketClose_reconnect_not_armed stLC 1006).2.2.1 ⟨by decide, by decide⟩⟩

def stC9 : LifecycleState :=
  { stLC with activePlotChannels := [], activeDiscreteChannels := [] }

/-- C9 counterexample. With the connection Local and a socket present but
the wanted set just emptied (every channel deselected), no subscription
request is emitted at all — the claim's "whenever the wanted channel set
changes and the connection state is not Off" fails for the empty set. -/
theorem sendDynamicChannelRequest_empty_counterexample :
    stC9.connectionState ≠ ConnectionType.Off ∧
    stC9.dataStreamWS.isSome = true ∧
    sendDynamicChannelRequest stC9 "user1" = none := by
  exact ⟨by decide, by decide, by decide⟩

/-- C9 (amended). When the connection is not Off, a socket reference exists
and the wanted set is nonempty, the emitted request is exactly
`{commandId "0XAB", tabIdLength 36, finalChannelCount = |wanted|,
channelList = wanted, tabUniqueId, userName}`; `finalChannelCount` always
equals the length of `channelList`; and `formatAndSendReq` sends the request
unchanged whenever the socket is OPEN. -/
theorem sendDynamicChannelRequest_fields (st : LifecycleState) (userName : String)
    (hconn : st.connectionState ≠ ConnectionType.Off)
    (hws : st.dataStreamWS.isSome = true)
    (hnonempty :
      getDynamicChannelList st.activeDiscreteChannels st.activePlotChannels ≠ []) :
    sendDynamicChannelRequest st userName =
      some
        { commandId := "0XAB"
          tabIdLength := 36
          finalChannelCount :=
            (getDynamicChannelList st.activeDiscreteChannels
              st.activePlotChannels).length
          channelList :=
            getDynamicChannelList st.activeDiscreteChannels st.activePlotChannels
          tabUniqueId := st.tabUniqueId
          userName := userName } ∧
    (∀ req, sendDynamicChannelRequest st userName = some req →
      req.finalChannelCount = req.channelList.length) ∧
    (∀ (req : DynamicChannelRequest) (socketOpen : Bool), socketOpen = true →
      formatAndSendReq socketOpen req = some req) := by
  have hlen : 0 < (getDynamicChannelList st.activeDiscreteChannels
      st.activePlotChannels).length := List.length_pos.mpr hnonempty
  refine ⟨?_, ?_, ?_⟩
  · unfold sendDynamicChannelRequest
    rw [if_pos ⟨hconn, hws⟩, if_pos hlen]
  · intro req hreq
    unfold sendDynamicChannelRequest at hreq
    rw [if_pos ⟨hconn, hws⟩, if_pos hlen] at hreq
    cases Option.some.inj hreq
    rfl
  · intro req socketOpen hso
    unfold formatAndSendReq
    rw [if_pos hso]

/-- Witness for C9's amended statement: discrete channel 5 and plot channel
101 wanted gives channelList [5, 101] and finalChannelCount 2. -/
theorem sendDynamicChannelRequest_fields_witness :
    sendDynamicChannelRequest stLC "user1" =
      some { commandId := "0XAB", tabIdLength := 36, finalChannelCount := 2,
             channelList := [5, 101], tabUniqueId := "tab-1", userName := "user1" } :=
  (sendDynamicChannelRequest_fields stLC "user1" (by decide) (by decide)
    (by decide)).1
